import Mathlib

/-!
# terraform-open-ssh-tunnels

A shallow embedding of `src/terraform-open-ssh-tunnels/main.go`.

The program walks the resources of a Terraform plan; for every resource of
type `ssh_tunnel` it builds an SSH client configuration (user name,
authentication methods, host-key callback), binds a local listener and starts
a goroutine that dials the SSH server and then runs an accept loop which
relays every accepted connection through the SSH session.

Everything the program obtains from outside (the current user, environment
variables, files, sockets) is an explicit oracle; everything it does to the
outside is recorded as an `Event` in a trace.  Oracles that perform I/O receive
the trace so far, so their answers may change over time.

The main goroutine and the goroutines of the tunnels run side by side.  How far
each goroutine has come at each point of the main goroutine is an oracle too
(`Sched`); `program` puts the two together: a panic in a goroutine ends the
whole process, a `return` of `main` ends every goroutine.
-/

namespace OpenSshTunnels

/-! ## Data model -/

abbrev Byte := Nat

/-- Attributes of a resource instance: the Go `map[string]string` in `r.Primary.Attributes`. -/
abbrev Attributes := List (String × String)

/-- Go map indexing `d[key]`: the stored value, and the zero value `""` for a missing key. -/
def lookupAttr (d : Attributes) (key : String) : String :=
  match d.lookup key with
  | some v => v
  | none => ""

/-- The `user.User` record returned by `user.Current()`. -/
structure User where
  Uid : String
  Gid : String
  Username : String
  Name : String
  HomeDir : String
deriving DecidableEq, Repr

/-- An `ssh.Signer` produced by `ssh.ParsePrivateKey`. -/
structure Signer where
  id : Nat
deriving DecidableEq, Repr

/-- The connection to the agent socket returned by `net.Dial("unix", sshAuthSock)`. -/
structure UnixConn where
  id : Nat
deriving DecidableEq, Repr

/-- The listener returned by `net.Listen("tcp", localAddress)`. -/
structure Listener where
  id : Nat
deriving DecidableEq, Repr

/-- The SSH session returned by `ssh.Dial("tcp", host, sshConf)`. -/
structure SshClient where
  id : Nat
deriving DecidableEq, Repr

/-- A local connection returned by `localListener.Accept()`. -/
structure Conn where
  id : Nat
deriving DecidableEq, Repr

/-- A channel returned by `sshClientConn.Dial("tcp", remoteAddress)`. -/
structure Channel where
  id : Nat
deriving DecidableEq, Repr

/-- The two kinds of `ssh.AuthMethod` the program builds. -/
inductive AuthMethod
  /-- The value `ssh.PublicKeys(signer)` of line 84. -/
  | publicKeys (signer : Signer)
  /-- The value `ssh.PublicKeysCallback(agent.NewClient(conn).Signers)` of lines 100-101. -/
  | publicKeysCallback (conn : UnixConn)
deriving DecidableEq, Repr

/-- The two host-key callbacks the program uses. -/
inductive HostKeyPolicy
  /-- The value `ssh.InsecureIgnoreHostKey()` of line 67: accept any host key. -/
  | insecureIgnoreHostKey
  /-- The value `knownhosts.New(file)` of line 42: verify against the known-hosts file. -/
  | knownHosts (file : String)
deriving DecidableEq, Repr

/-- The fields of `ssh.ClientConfig` that the program sets (lines 87-91). -/
structure ClientConfig where
  User : String
  Auth : List AuthMethod
  HostKeyCallback : HostKeyPolicy
deriving DecidableEq, Repr

/-- The variables captured by the goroutine of lines 118-154. -/
structure Tunnel where
  host : String
  sshConf : ClientConfig
  localListener : Listener
  remoteAddress : String
deriving DecidableEq, Repr

/-- One end of a forwarded connection. -/
inductive Endpoint
  | localConn (c : Conn)
  | sshConn (ch : Channel)
deriving DecidableEq, Repr

/-- The lines the program prints with `fmt.Printf`. -/
inductive Msg
  | unableToReadKey (err : String)
  | unableToParseKey (err : String)
  | noAuthMethod
  | forwarding (path : List String) (localAddress remoteAddress host : String)
  | errorAccepting (err : String)
  | errorOpening (remoteAddress err : String)
deriving DecidableEq, Repr

/-- The observable actions of the program. -/
inductive Event
  /-- The call `ioutil.ReadFile(privateKey)`, line 70. -/
  | readFile (path : String)
  /-- The call `os.LookupEnv(name)`, line 94. -/
  | lookupEnv (name : String)
  /-- The call `net.Dial("unix", sock)`, line 96. -/
  | dialUnix (sock : String)
  /-- A call of `fmt.Printf`. -/
  | print (msg : Msg)
  /-- The call `net.Listen("tcp", addr)`, line 112. -/
  | listen (addr : String)
  /-- The call `wg.Add(1)`, line 117. -/
  | wgAdd
  /-- The statement `go func() ...` of line 118, with the captured variables. -/
  | go (t : Tunnel)
  /-- The call `time.Sleep(1 * time.Second)`, line 155. -/
  | sleep
  /-- The call `wg.Wait()`, line 160. -/
  | wgWait
  /-- The call `ssh.Dial("tcp", host, sshConf)`, line 119. -/
  | sshDial (host : String) (sshConf : ClientConfig)
  /-- The call `localListener.Accept()`, line 126. -/
  | accept (l : Listener)
  /-- The call `sshClientConn.Dial("tcp", remoteAddress)`, line 132. -/
  | channelDial (client : SshClient) (remoteAddress : String)
  /-- The statement `go func() ... io.Copy(dst, src) ...`, lines 139 and 147. -/
  | goCopy (dst src : Endpoint)
  /-- A call of `Close` on a connection end; the program contains none. -/
  | closeConn (e : Endpoint)
deriving DecidableEq, Repr

/-- What the main goroutine's surroundings answer. -/
structure Env where
  /-- The result of `user.Current()`. -/
  currentUser : Except String User
  /-- The value of `os.Getenv("QA_PRIVATE_KEY")`: `""` when unset. -/
  qaPrivateKey : String
  /-- The result of `os.LookupEnv("SSH_AUTH_SOCK")`. -/
  sshAuthSock : Option String
  /-- The result of `ioutil.ReadFile`. -/
  readFile : List Event → String → Except String (List Byte)
  /-- The result of `ssh.ParsePrivateKey`. -/
  parsePrivateKey : List Byte → Except String Signer
  /-- The result of `net.Dial("unix", _)`. -/
  dialUnix : List Event → String → Except String UnixConn
  /-- The result of `net.Listen("tcp", _)`. -/
  listen : List Event → String → Except String Listener

/-- How a piece of the body of `main` ends. -/
inductive Outcome (α : Type)
  /-- Control falls through to the next statement. -/
  | ok (a : α)
  /-- A `return` statement of `main` was executed. -/
  | returned
  /-- A `panic` was raised. -/
  | panicked (err : String)
deriving DecidableEq, Repr

/-! ## Credential resolution (lines 52-108) -/

/-- The function `strconv.ParseBool` of the Go standard library: the value and the error. -/
def parseBool (str : String) : Bool × Option String :=
  if str ∈ ["1", "t", "T", "true", "TRUE", "True"] then (true, none)
  else if str ∈ ["0", "f", "F", "false", "FALSE", "False"] then (false, none)
  else (false, some ("strconv.ParseBool: parsing " ++ str ++ ": invalid syntax"))

/-- Line 64: `sshAgent, _ := strconv.ParseBool(d["ssh_agent"])`. -/
def sshAgent (d : Attributes) : Bool :=
  (parseBool (lookupAttr d "ssh_agent")).1

/-- Lines 53-60: the user name, taken from the current user when the attribute is empty. -/
def resolveUsername (env : Env) (d : Attributes) : Outcome String :=
  let username := lookupAttr d "user"
  if username = "" then
    match env.currentUser with
    | .error err => .panicked err
    | .ok currentUser => .ok currentUser.Username
  else .ok username

/-- Lines 66-85: the private-key method and the host-key callback. -/
def resolvePrivateKey (env : Env) (hostKeyCallback : HostKeyPolicy) (hist : List Event) :
    List Event × Outcome (List AuthMethod × HostKeyPolicy) :=
  let authMethods : List AuthMethod := []
  let callback := HostKeyPolicy.insecureIgnoreHostKey
  let privateKey := env.qaPrivateKey
  if privateKey ≠ "" then
    match env.readFile hist privateKey with
    | .error err => ([.readFile privateKey, .print (.unableToReadKey err)], .returned)
    | .ok key =>
      match env.parsePrivateKey key with
      | .error err => ([.readFile privateKey, .print (.unableToParseKey err)], .returned)
      | .ok signer =>
        ([.readFile privateKey], .ok (authMethods ++ [.publicKeys signer], hostKeyCallback))
  else ([], .ok (authMethods, callback))

/-- Lines 93-104: the agent-backed method. -/
def addAgentAuth (env : Env) (useAgent : Bool) (sshConf : ClientConfig) (hist : List Event) :
    List Event × Outcome ClientConfig :=
  if useAgent then
    match env.sshAuthSock with
    | some sshAuthSock =>
      match env.dialUnix (hist ++ [.lookupEnv "SSH_AUTH_SOCK"]) sshAuthSock with
      | .error err => ([.lookupEnv "SSH_AUTH_SOCK", .dialUnix sshAuthSock], .panicked err)
      | .ok conn =>
        ([.lookupEnv "SSH_AUTH_SOCK", .dialUnix sshAuthSock],
          .ok { sshConf with Auth := sshConf.Auth ++ [.publicKeysCallback conn] })
    | none => ([.lookupEnv "SSH_AUTH_SOCK"], .ok sshConf)
  else ([], .ok sshConf)

/-- Lines 52-108: the client configuration of one tunnel, with the events of building it. -/
def resolveCredentials (env : Env) (hostKeyCallback : HostKeyPolicy) (d : Attributes)
    (hist : List Event) : List Event × Outcome ClientConfig :=
  match resolveUsername env d with
  | .panicked err => ([], .panicked err)
  | .returned => ([], .returned)
  | .ok username =>
    match resolvePrivateKey env hostKeyCallback hist with
    | (evs₁, .panicked err) => (evs₁, .panicked err)
    | (evs₁, .returned) => (evs₁, .returned)
    | (evs₁, .ok (authMethods, callback)) =>
      let sshConf : ClientConfig :=
        { User := username, Auth := authMethods, HostKeyCallback := callback }
      match addAgentAuth env (sshAgent d) sshConf (hist ++ evs₁) with
      | (evs₂, .panicked err) => (evs₁ ++ evs₂, .panicked err)
      | (evs₂, .returned) => (evs₁ ++ evs₂, .returned)
      | (evs₂, .ok sshConf) =>
        if sshConf.Auth.length = 0 then
          (evs₁ ++ evs₂ ++ [.print .noAuthMethod], .returned)
        else (evs₁ ++ evs₂, .ok sshConf)

/-! ## One tunnel and the loop over the plan (lines 47-160) -/

/-- Lines 52-155: the body of the loop for one `ssh_tunnel` resource. -/
def processTunnel (env : Env) (hostKeyCallback : HostKeyPolicy) (path : List String)
    (d : Attributes) (hist : List Event) : List Event × Outcome Unit :=
  let host := lookupAttr d "host"
  let localAddress := lookupAttr d "local_address"
  let remoteAddress := lookupAttr d "remote_address"
  match resolveCredentials env hostKeyCallback d hist with
  | (evs, .panicked err) => (evs, .panicked err)
  | (evs, .returned) => (evs, .returned)
  | (evs, .ok sshConf) =>
    let evs₁ := evs ++ [.print (.forwarding path localAddress remoteAddress host)]
    match env.listen (hist ++ evs₁) localAddress with
    | .error err => (evs₁ ++ [.listen localAddress], .panicked err)
    | .ok localListener =>
      (evs₁ ++ [.listen localAddress, .wgAdd,
          .go { host := host, sshConf := sshConf, localListener := localListener,
                remoteAddress := remoteAddress },
          .sleep], .ok ())

/-- A resource of the plan: `r.Type` and `r.Primary.Attributes` (`none` for a nil `Primary`). -/
structure ResourceState where
  Type_ : String
  Primary : Option Attributes
deriving DecidableEq, Repr

/-- A module of the plan: `m.Path` and `m.Resources` in the order the loop visits them. -/
structure ModuleState where
  Path : List String
  Resources : List ResourceState
deriving DecidableEq, Repr

/-- Lines 49-158: the loop over the resources of one module; the result is the whole trace. -/
def runResources (env : Env) (hostKeyCallback : HostKeyPolicy) (path : List String) :
    List Event → List ResourceState → List Event × Outcome Unit
  | hist, [] => (hist, .ok ())
  | hist, r :: rs =>
    if r.Type_ = "ssh_tunnel" then
      match r.Primary with
      | none => (hist, .panicked "invalid memory address or nil pointer dereference")
      | some d =>
        match processTunnel env hostKeyCallback path d hist with
        | (evs, .ok _) => runResources env hostKeyCallback path (hist ++ evs) rs
        | (evs, .returned) => (hist ++ evs, .returned)
        | (evs, .panicked err) => (hist ++ evs, .panicked err)
    else runResources env hostKeyCallback path hist rs

/-- Lines 48-159: the loop over the modules of the plan. -/
def runModules (env : Env) (hostKeyCallback : HostKeyPolicy) :
    List Event → List ModuleState → List Event × Outcome Unit
  | hist, [] => (hist, .ok ())
  | hist, m :: ms =>
    match runResources env hostKeyCallback m.Path hist m.Resources with
    | (hist₁, .ok _) => runModules env hostKeyCallback hist₁ ms
    | (hist₁, .returned) => (hist₁, .returned)
    | (hist₁, .panicked err) => (hist₁, .panicked err)

/-- Lines 47-160 as the main goroutine executes them when nothing stops it on the way: the
loops, followed by `wg.Wait()`, which is reached only when they finish. The goroutines it
starts run beside it; `program` below adds them. -/
def runMain (env : Env) (hostKeyCallback : HostKeyPolicy) (modules : List ModuleState) :
    List Event × Outcome Unit :=
  match runModules env hostKeyCallback [] modules with
  | (hist, .ok _) => (hist ++ [.wgWait], .ok ())
  | (hist, .returned) => (hist, .returned)
  | (hist, .panicked err) => (hist, .panicked err)

/-- The tunnels handed to `go` in a trace, in launch order. -/
def launched : List Event → List Tunnel
  | [] => []
  | .go t :: evs => t :: launched evs
  | _ :: evs => launched evs

/-! ## The goroutine of one tunnel (lines 118-154) -/

/-- What the surroundings of a tunnel's goroutine answer. -/
structure Net where
  /-- The result of `ssh.Dial("tcp", host, sshConf)`. -/
  sshDial : List Event → String → ClientConfig → Except String SshClient
  /-- The result of `localListener.Accept()`. -/
  accept : List Event → Listener → Except String Conn
  /-- The result of `sshClientConn.Dial("tcp", remoteAddress)`. -/
  channelDial : List Event → SshClient → String → Except String Channel

/-- Where the goroutine of lines 118-154 stands. -/
inductive Pc
  /-- Before `ssh.Dial`, line 119. -/
  | dial
  /-- At the head of the loop, before `localListener.Accept()`, line 126. -/
  | accept (sshClientConn : SshClient)
  /-- Before `sshClientConn.Dial`, line 132, holding the accepted connection. -/
  | channel (sshClientConn : SshClient) (localConn : Conn)
  /-- After the `panic(err)` of line 121. -/
  | panicked (err : String)
  /-- Past the loop, at the end of the function, line 154. -/
  | stopped
deriving DecidableEq, Repr

/-- The goroutine's position and the events it has produced. -/
structure TaskState where
  pc : Pc
  trace : List Event
deriving DecidableEq, Repr

/-- One statement of the goroutine of lines 118-154. -/
def step (net : Net) (t : Tunnel) (s : TaskState) : TaskState :=
  match s.pc with
  | .dial =>
    match net.sshDial s.trace t.host t.sshConf with
    | .error err => { pc := .panicked err, trace := s.trace ++ [.sshDial t.host t.sshConf] }
    | .ok sshClientConn =>
      { pc := .accept sshClientConn, trace := s.trace ++ [.sshDial t.host t.sshConf] }
  | .accept sshClientConn =>
    match net.accept s.trace t.localListener with
    | .error err =>
      { pc := .accept sshClientConn,
        trace := s.trace ++ [.accept t.localListener, .print (.errorAccepting err)] }
    | .ok localConn =>
      { pc := .channel sshClientConn localConn, trace := s.trace ++ [.accept t.localListener] }
  | .channel sshClientConn localConn =>
    match net.channelDial s.trace sshClientConn t.remoteAddress with
    | .error err =>
      { pc := .accept sshClientConn,
        trace := s.trace ++ [.channelDial sshClientConn t.remoteAddress,
          .print (.errorOpening t.remoteAddress err)] }
    | .ok sshConn =>
      { pc := .accept sshClientConn,
        trace := s.trace ++ [.channelDial sshClientConn t.remoteAddress,
          .goCopy (.sshConn sshConn) (.localConn localConn),
          .goCopy (.localConn localConn) (.sshConn sshConn)] }
  | .panicked err => { pc := .panicked err, trace := s.trace }
  | .stopped => { pc := .stopped, trace := s.trace }

/-- The goroutine after `n` statements. -/
def run (net : Net) (t : Tunnel) : Nat → TaskState → TaskState
  | 0, s => s
  | n + 1, s => run net t n (step net t s)

/-- The event is the start of a relay task. -/
def Event.isGoCopy : Event → Bool
  | .goCopy _ _ => true
  | _ => false

/-- The event is the opening of a channel. -/
def Event.isChannelDial : Event → Bool
  | .channelDial _ _ => true
  | _ => false

/-- The event is a call of `Close`. -/
def Event.isCloseConn : Event → Bool
  | .closeConn _ => true
  | _ => false

/-- The event is a call of `net.Listen`. -/
def Event.isListen : Event → Bool
  | .listen _ => true
  | _ => false

/-- The event is a `go` statement starting a tunnel. -/
def Event.isGo : Event → Bool
  | .go _ => true
  | _ => false

/-- The event is an `ssh.Dial`. -/
def Event.isSshDial : Event → Bool
  | .sshDial _ _ => true
  | _ => false

/-- The event is a use of the agent socket: its lookup or its dial. -/
def Event.isAgentUse : Event → Bool
  | .lookupEnv _ => true
  | .dialUnix _ => true
  | _ => false

/-- The method is the agent-backed one. -/
def AuthMethod.isAgent : AuthMethod → Bool
  | .publicKeysCallback _ => true
  | _ => false

/-- The outcome of a step with its value forgotten. -/
def Outcome.forget {α : Type} : Outcome α → Outcome Unit
  | .ok _ => .ok ()
  | .returned => .returned
  | .panicked err => .panicked err

/-! ## The process: the main goroutine and the goroutines of its tunnels -/

/-- How far the goroutines have come: for the trace the main goroutine has produced so far
and the index of a launched tunnel, the number of statements its goroutine has executed. -/
abbrev Sched := List Event → Nat → Nat

/-- The goroutines of the given tunnels, numbered from `i`, as far as they have come when
the main goroutine has produced `hist`. -/
def goroutines (net : Net) (sched : Sched) (hist : List Event) : Nat → List Tunnel → List TaskState
  | _, [] => []
  | i, t :: ts =>
    run net t (sched hist i) { pc := .dial, trace := [] } :: goroutines net sched hist (i + 1) ts

/-- The first panic among goroutine states. -/
def firstPanic : List TaskState → Option String
  | [] => none
  | s :: rest =>
    match s.pc with
    | .panicked err => some err
    | _ => firstPanic rest

/-- The panic of line 121, if a goroutine launched in `hist` has raised it by the time the
main goroutine has produced `hist`: it ends the whole process. -/
def crashed (net : Net) (sched : Sched) (hist : List Event) : Option String :=
  firstPanic (goroutines net sched hist 0 (launched hist))

/-- The main goroutine's events `rest`, coming after `done`, up to the point where the panic
of a goroutine ends the process: the events that happen, and that panic if there is one. -/
def untilCrash (net : Net) (sched : Sched) : List Event → List Event → List Event × Option String
  | done, [] =>
    match crashed net sched done with
    | some err => (done, some err)
    | none => (done, none)
  | done, e :: rest =>
    match crashed net sched done with
    | some err => (done, some err)
    | none => untilCrash net sched (done ++ [e]) rest

/-- How the main goroutine's part of the process ends. -/
inductive Exit
  /-- A `return` inside the loops (lines 73, 80, 107): the process exits, and with it every
  goroutine. -/
  | returned
  /-- A panic of the main goroutine (lines 57, 98, 114). -/
  | mainPanicked (err : String)
  /-- The panic of a tunnel's goroutine (line 121). -/
  | goroutinePanicked (err : String)
  /-- The main goroutine is in `wg.Wait()`, which does not return while tunnels are running:
  nothing calls `wg.Done`. -/
  | waiting
  /-- No tunnel was launched: `wg.Wait()` returns at once and `main` ends at line 161. -/
  | finished
deriving DecidableEq, Repr

/-- Lines 47-160 as a process: what the main goroutine does until it ends or the panic of a
goroutine ends the process, and how that comes about. -/
def program (env : Env) (hostKeyCallback : HostKeyPolicy) (net : Net) (sched : Sched)
    (modules : List ModuleState) : List Event × Exit :=
  match runMain env hostKeyCallback modules with
  | (full, out) =>
    match untilCrash net sched [] full with
    | (done, some err) => (done, .goroutinePanicked err)
    | (done, none) =>
      match out with
      | .ok _ => if launched done = [] then (done, .finished) else (done, .waiting)
      | .returned => (done, .returned)
      | .panicked err => (done, .mainPanicked err)

/-! ## The relay tasks (lines 139-152) -/

/-- How one `Read` call on a connection ends. -/
inductive ReadStatus
  /-- A nil error: more may follow. -/
  | more
  /-- The error `io.EOF`: end of stream. -/
  | eof
  /-- Any other error. -/
  | failed (err : String)
deriving DecidableEq, Repr

/-- The result of one `Read` call: the bytes placed in the buffer and the status. -/
structure ReadResult where
  data : List Byte
  status : ReadStatus
deriving DecidableEq, Repr

/-- The answer of a destination to `Write(p)`, given what it has received so far: the number
of bytes taken and an error, if any. -/
abbrev Writer := List Byte → List Byte → Nat × Option String

/-- How a copy ends. -/
inductive CopyEnd
  /-- The source reported end of stream: `io.Copy` returns a nil error. -/
  | finished
  /-- The copy stopped with an error, which the relay task prints. -/
  | failed (err : String)
  /-- The source has nothing more to say yet: the copy is blocked in `Read`. -/
  | blocked
deriving DecidableEq, Repr

/-- Modelled from the spec: `io.Copy(dst, src)` belongs to the Go standard library and is not
under `src/`. Per the spec a relay task "runs until its source returns end-of-stream or an
error"; per the library's documentation it reads from `src` into a buffer and writes what it
read to `dst`, stopping at the first write error or short write. The source is given by the
results of its successive `Read` calls; the result is what the destination has received, and
how the copy ended. -/
def ioCopy (write : Writer) : List ReadResult → List Byte → List Byte × CopyEnd
  | [], received => (received, .blocked)
  | r :: rs, received =>
    if 0 < r.data.length then
      match write received r.data with
      | (nw, ew) =>
        let received₁ := received ++ r.data.take nw
        if r.data.length < nw then
          (received₁, .failed (ew.getD "invalid write result"))
        else
          match ew with
          | some err => (received₁, .failed err)
          | none =>
            if nw ≠ r.data.length then (received₁, .failed "short write")
            else
              match r.status with
              | .more => ioCopy write rs received₁
              | .eof => (received₁, .finished)
              | .failed err => (received₁, .failed err)
    else
      match r.status with
      | .more => ioCopy write rs received
      | .eof => (received, .finished)
      | .failed err => (received, .failed err)

/-- The bytes a copy obtains from a source: the data of its `Read` results, in order, up to
and including the first result that reports end of stream or an error. -/
def bytesRead : List ReadResult → List Byte
  | [] => []
  | r :: rs =>
    match r.status with
    | .more => r.data ++ bytesRead rs
    | .eof => r.data
    | .failed _ => r.data

/-- How a source ends a copy that is not stopped by its destination: with the first end of
stream or error it reports; a source that has reported neither keeps the copy waiting. -/
def sourceEnd : List ReadResult → CopyEnd
  | [] => .blocked
  | r :: rs =>
    match r.status with
    | .more => sourceEnd rs
    | .eof => .finished
    | .failed err => .failed err

/-- The size of the buffer `io.Copy` reads into: 32 KiB. -/
def copyBufferSize : Nat := 32 * 1024

/-- The `Read` results of a source that hands out the given pieces and then reports end of
stream. -/
def readsOf (pieces : List (List Byte)) : List ReadResult :=
  pieces.map (fun p => { data := p, status := .more }) ++ [{ data := [], status := .eof }]

/-- The pieces in which a source with all of `bs` pending fills buffers of `size` bytes. -/
def bufferFills (size : Nat) : Nat → List Byte → List (List Byte)
  | 0, _ => []
  | fuel + 1, bs => if bs = [] then [] else bs.take size :: bufferFills size fuel (bs.drop size)

/-- A destination that takes every byte it is given. -/
def acceptAll : Writer := fun _ p => (p.length, none)

/-- What the two ends of forwarded connections do: what reading from an end yields, and how
an end answers writes. -/
structure Streams where
  reads : Endpoint → List ReadResult
  write : Endpoint → Writer

/-- The relay task started by a `goCopy dst src` event: the end written to, what it has
received, and how the copy ended. -/
def relay (io : Streams) : Event → Option (Endpoint × List Byte × CopyEnd)
  | .goCopy dst src => some (dst, ioCopy (io.write dst) (io.reads src) [])
  | _ => none

/-! ## Sample surroundings and tunnel declarations -/

/-- The invoking user of the samples. -/
def alice : User :=
  { Uid := "1000", Gid := "1000", Username := "alice", Name := "Alice Liddell",
    HomeDir := "/home/alice" }

/-- Surroundings with a readable, well-formed private key and no agent socket. -/
def envWithKey : Env where
  currentUser := .ok alice
  qaPrivateKey := "/home/alice/.ssh/id_rsa"
  sshAuthSock := none
  readFile := fun _ _ => .ok [45, 45, 45]
  parsePrivateKey := fun _ => .ok { id := 1 }
  dialUnix := fun _ _ => .error "connection refused"
  listen := fun _ _ => .ok { id := 3 }

/-- Surroundings with no private key and a running agent. -/
def envWithAgent : Env where
  currentUser := .ok alice
  qaPrivateKey := ""
  sshAuthSock := some "/tmp/agent.sock"
  readFile := fun _ _ => .error "no such file"
  parsePrivateKey := fun _ => .error "no key found"
  dialUnix := fun _ _ => .ok { id := 2 }
  listen := fun _ _ => .ok { id := 3 }

/-- Surroundings with a private key and a running agent. -/
def envWithBoth : Env where
  currentUser := .ok alice
  qaPrivateKey := "/home/alice/.ssh/id_rsa"
  sshAuthSock := some "/tmp/agent.sock"
  readFile := fun _ _ => .ok [45, 45, 45]
  parsePrivateKey := fun _ => .ok { id := 1 }
  dialUnix := fun _ _ => .ok { id := 2 }
  listen := fun _ _ => .ok { id := 3 }

/-- Surroundings with a private-key path whose file cannot be read, and a running agent. -/
def envBadKey : Env where
  currentUser := .ok alice
  qaPrivateKey := "/home/alice/.ssh/missing"
  sshAuthSock := some "/tmp/agent.sock"
  readFile := fun _ _ => .error "no such file"
  parsePrivateKey := fun _ => .error "no key found"
  dialUnix := fun _ _ => .ok { id := 2 }
  listen := fun _ _ => .ok { id := 3 }

/-- The known-hosts callback of the samples. -/
def knownHostsOfAlice : HostKeyPolicy := .knownHosts "/home/alice/.ssh/known_hosts"

/-- A tunnel declaration with an empty user and the agent switched on. -/
def tunnelWithAgent : Attributes :=
  [("host", "ssh.example:22"), ("local_address", "127.0.0.1:9001"),
   ("remote_address", "10.0.0.5:80"), ("user", ""), ("ssh_agent", "true")]

/-- A tunnel declaration without an `ssh_agent` attribute. -/
def tunnelNoAgent : Attributes :=
  [("host", "ssh.example:22"), ("local_address", "127.0.0.1:9002"),
   ("remote_address", "10.0.0.6:80"), ("user", "bob")]

/-- A tunnel declaration whose `ssh_agent` attribute is not a Go boolean. -/
def tunnelYesAgent : Attributes :=
  [("host", "ssh.example:22"), ("local_address", "127.0.0.1:9003"),
   ("remote_address", "10.0.0.7:80"), ("user", "bob"), ("ssh_agent", "yes")]

/-- A plan with one module holding the given tunnel declarations, in loop order. -/
def planOf (ds : List Attributes) : List ModuleState :=
  [{ Path := ["root"],
     Resources := ds.map (fun d => { Type_ := "ssh_tunnel", Primary := some d }) }]

/-- A tunnel as captured by its goroutine, for the samples. -/
def sampleTunnel : Tunnel :=
  { host := "ssh.example:22",
    sshConf := { User := "alice", Auth := [.publicKeysCallback { id := 2 }],
                 HostKeyCallback := .insecureIgnoreHostKey },
    localListener := { id := 3 },
    remoteAddress := "10.0.0.5:80" }

/-- Surroundings in which the first `Accept` fails, later ones succeed, and no channel can
be opened. -/
def netClosedRemote : Net where
  sshDial := fun _ _ _ => .ok { id := 4 }
  accept := fun hist _ => if hist.length < 2 then .error "too many open files" else .ok { id := 5 }
  channelDial := fun _ _ _ => .error "administratively prohibited"

/-- Surroundings in which every call succeeds. -/
def netHealthy : Net where
  sshDial := fun _ _ _ => .ok { id := 4 }
  accept := fun _ _ => .ok { id := 5 }
  channelDial := fun _ _ _ => .ok { id := 6 }

/-- Surroundings in which the SSH server cannot be reached. -/
def netUnreachable : Net where
  sshDial := fun _ _ _ => .error "connection refused"
  accept := fun _ _ => .ok { id := 5 }
  channelDial := fun _ _ _ => .ok { id := 6 }

/-- A schedule in which no goroutine runs before the first pause of the main goroutine, and
each launched goroutine has executed one statement from then on. -/
def schedDuringSleep : Sched := fun hist _ =>
  if Event.sleep ∈ hist then 1 else 0

/-- Connection ends of a conversation still going on: the local end has sent a request whose
last piece came with an error, the remote end has answered and not closed; every write is
taken. -/
def openStreams : Streams where
  reads := fun e =>
    match e with
    | .localConn _ =>
      [{ data := [71, 69], status := .more },
       { data := [84], status := .failed "connection reset by peer" }]
    | .sshConn _ => [{ data := [50, 48, 48], status := .more }]
  write := fun _ => acceptAll

/-- Connection ends whose last data comes together with the end of stream, the remote end
taking only the first two bytes of what it is given. -/
def shortStreams : Streams where
  reads := fun e =>
    match e with
    | .localConn _ => [{ data := [71, 69, 84], status := .eof }]
    | .sshConn _ => [{ data := [50, 48, 48], status := .eof }]
  write := fun e =>
    match e with
    | .localConn _ => acceptAll
    | .sshConn _ => fun _ _ => (2, none)

/-! ## Facts about credential resolution -/

theorem resolveUsername_cases (env : Env) (d : Attributes) :
    (∃ u, resolveUsername env d = .ok u) ∨ (∃ err, resolveUsername env d = .panicked err) := by
  unfold resolveUsername
  simp only
  split
  · split
    · exact Or.inr ⟨_, rfl⟩
    · exact Or.inl ⟨_, rfl⟩
  · exact Or.inl ⟨_, rfl⟩

theorem resolvePrivateKey_ok {env : Env} {hk : HostKeyPolicy} {hist evs : List Event}
    {auth : List AuthMethod} {cb : HostKeyPolicy}
    (h : resolvePrivateKey env hk hist = (evs, .ok (auth, cb))) :
    (env.qaPrivateKey = "" ∧ evs = [] ∧ auth = [] ∧ cb = .insecureIgnoreHostKey) ∨
    (env.qaPrivateKey ≠ "" ∧ evs = [.readFile env.qaPrivateKey] ∧ cb = hk ∧
      ∃ key signer, env.readFile hist env.qaPrivateKey = .ok key ∧
        env.parsePrivateKey key = .ok signer ∧ auth = [.publicKeys signer]) := by
  unfold resolvePrivateKey at h
  simp only at h
  split at h
  · rename_i hne
    split at h
    · simp at h
    · rename_i key hkey
      split at h
      · simp at h
      · rename_i signer hsig
        simp only [Prod.mk.injEq, Outcome.ok.injEq, List.nil_append] at h
        obtain ⟨h1, h2, h3⟩ := h
        exact Or.inr ⟨hne, h1.symm, h3.symm, key, signer, hkey, hsig, h2.symm⟩
  · rename_i hne
    simp only [Prod.mk.injEq, Outcome.ok.injEq] at h
    obtain ⟨h1, h2, h3⟩ := h
    exact Or.inl ⟨by simpa using hne, h1.symm, h2.symm, h3.symm⟩

theorem addAgentAuth_ok {env : Env} {useAgent : Bool} {conf conf₂ : ClientConfig}
    {hist evs : List Event}
    (h : addAgentAuth env useAgent conf hist = (evs, .ok conf₂)) :
    conf₂.User = conf.User ∧ conf₂.HostKeyCallback = conf.HostKeyCallback ∧
    (((useAgent = false ∨ env.sshAuthSock = none) ∧ conf₂.Auth = conf.Auth) ∨
     (useAgent = true ∧ ∃ sock conn, env.sshAuthSock = some sock ∧
        env.dialUnix (hist ++ [.lookupEnv "SSH_AUTH_SOCK"]) sock = .ok conn ∧
        conf₂.Auth = conf.Auth ++ [.publicKeysCallback conn])) := by
  unfold addAgentAuth at h
  split at h
  · rename_i hu
    split at h
    · rename_i sock hsock
      split at h
      · simp at h
      · rename_i conn hconn
        simp only [Prod.mk.injEq, Outcome.ok.injEq] at h
        obtain ⟨-, h2⟩ := h
        subst h2
        exact ⟨rfl, rfl, Or.inr ⟨hu, sock, conn, hsock, hconn, rfl⟩⟩
    · rename_i hsock
      simp only [Prod.mk.injEq, Outcome.ok.injEq] at h
      obtain ⟨-, h2⟩ := h
      subst h2
      exact ⟨rfl, rfl, Or.inl ⟨Or.inr hsock, rfl⟩⟩
  · rename_i hu
    simp only [Prod.mk.injEq, Outcome.ok.injEq] at h
    obtain ⟨-, h2⟩ := h
    subst h2
    exact ⟨rfl, rfl, Or.inl ⟨Or.inl (by simpa using hu), rfl⟩⟩

theorem resolveCredentials_ok {env : Env} {hk : HostKeyPolicy} {d : Attributes}
    {hist evs : List Event} {conf : ClientConfig}
    (h : resolveCredentials env hk d hist = (evs, .ok conf)) :
    ∃ username auth cb evs₁ evs₂,
      resolveUsername env d = .ok username ∧
      resolvePrivateKey env hk hist = (evs₁, .ok (auth, cb)) ∧
      addAgentAuth env (sshAgent d) ⟨username, auth, cb⟩ (hist ++ evs₁) = (evs₂, .ok conf) ∧
      evs = evs₁ ++ evs₂ ∧ conf.Auth ≠ [] := by
  unfold resolveCredentials at h
  split at h
  · simp at h
  · simp at h
  · rename_i username hu
    split at h
    · simp at h
    · simp at h
    · rename_i evs₁ auth cb hpk
      simp only at h
      split at h
      · simp at h
      · simp at h
      · rename_i evs₂ conf₂ hag
        split at h
        · simp at h
        · rename_i hlen
          simp only [Prod.mk.injEq, Outcome.ok.injEq] at h
          obtain ⟨h1, h2⟩ := h
          subst h2
          refine ⟨username, auth, cb, evs₁, evs₂, hu, hpk, hag, h1.symm, ?_⟩
          intro hnil
          exact hlen (by simp [hnil])

/-- Without a private key and without a usable agent, resolution prints the configuration
error and returns, unless the user lookup has panicked before. -/
theorem resolveCredentials_noAuth (env : Env) (hk : HostKeyPolicy) (d : Attributes)
    (hist : List Event) (hkey : env.qaPrivateKey = "")
    (hagent : sshAgent d = false ∨ env.sshAuthSock = none) :
    resolveCredentials env hk d hist =
      match resolveUsername env d with
      | .ok _ =>
        ((if sshAgent d = true then [Event.lookupEnv "SSH_AUTH_SOCK"] else []) ++
          [.print .noAuthMethod], .returned)
      | .returned => ([], .returned)
      | .panicked err => ([], .panicked err) := by
  unfold resolveCredentials
  cases hu : resolveUsername env d with
  | returned => rfl
  | panicked err => rfl
  | ok u =>
    have hpk : resolvePrivateKey env hk hist = ([], .ok ([], .insecureIgnoreHostKey)) := by
      unfold resolvePrivateKey
      simp [hkey]
    simp only [hpk]
    rcases hagent with h | h
    · simp [addAgentAuth, h]
    · cases hs : sshAgent d <;> simp [addAgentAuth, h]

/-- With a private key configured that cannot be read or parsed, resolution prints the
error and returns, unless the user lookup has panicked before. -/
theorem resolveCredentials_keyFailure (env : Env) (hk : HostKeyPolicy) (d : Attributes)
    (hist : List Event) (hkey : env.qaPrivateKey ≠ "")
    (hfail : (∃ err, env.readFile hist env.qaPrivateKey = .error err) ∨
      (∃ key err, env.readFile hist env.qaPrivateKey = .ok key ∧
        env.parsePrivateKey key = .error err)) :
    ∃ msg, resolveCredentials env hk d hist =
      match resolveUsername env d with
      | .ok _ => ([.readFile env.qaPrivateKey, .print msg], .returned)
      | .returned => ([], .returned)
      | .panicked err => ([], .panicked err) := by
  have hpk : ∃ msg, resolvePrivateKey env hk hist =
      ([.readFile env.qaPrivateKey, .print msg], .returned) := by
    unfold resolvePrivateKey
    rcases hfail with ⟨err, h⟩ | ⟨key, err, h, h2⟩
    · exact ⟨.unableToReadKey err, by simp [hkey, h]⟩
    · exact ⟨.unableToParseKey err, by simp [hkey, h, h2]⟩
  obtain ⟨msg, hpk⟩ := hpk
  refine ⟨msg, ?_⟩
  unfold resolveCredentials
  cases hu : resolveUsername env d with
  | returned => rfl
  | panicked err => rfl
  | ok u => simp only [hpk]

/-- When resolution does not succeed, the loop body ends as resolution did. -/
theorem processTunnel_of_not_ok (env : Env) (hk : HostKeyPolicy) (path : List String)
    (d : Attributes) (hist : List Event)
    (h : ∀ conf, (resolveCredentials env hk d hist).2 ≠ .ok conf) :
    processTunnel env hk path d hist =
      ((resolveCredentials env hk d hist).1, (resolveCredentials env hk d hist).2.forget) := by
  unfold processTunnel
  rcases hr : resolveCredentials env hk d hist with ⟨evs, o⟩
  cases o with
  | returned => rfl
  | panicked err => rfl
  | ok conf => exact absurd (by rw [hr]) (h conf)

/-- The private-key step only reads the key file and prints. -/
theorem resolvePrivateKey_events (env : Env) (hk : HostKeyPolicy) (hist : List Event) :
    ∀ e ∈ (resolvePrivateKey env hk hist).1,
      e.isListen = false ∧ e.isGo = false ∧ e.isSshDial = false ∧ e.isAgentUse = false ∧
        e ≠ .wgWait := by
  intro e he
  unfold resolvePrivateKey at he
  simp only at he
  split at he
  · split at he
    · simp only [List.mem_cons, List.mem_singleton, List.not_mem_nil, or_false] at he
      rcases he with rfl | rfl <;> exact ⟨rfl, rfl, rfl, rfl, by simp⟩
    · split at he
      · simp only [List.mem_cons, List.mem_singleton, List.not_mem_nil, or_false] at he
        rcases he with rfl | rfl <;> exact ⟨rfl, rfl, rfl, rfl, by simp⟩
      · simp only [List.mem_singleton] at he
        subst he
        exact ⟨rfl, rfl, rfl, rfl, by simp⟩
  · simp at he

/-- Resolution only reads the key file, looks up and dials the agent socket, and prints. -/
theorem resolveCredentials_events (env : Env) (hk : HostKeyPolicy) (d : Attributes)
    (hist : List Event) :
    ∀ e ∈ (resolveCredentials env hk d hist).1,
      e.isListen = false ∧ e.isGo = false ∧ e.isSshDial = false ∧ e ≠ .wgWait := by
  have hpk : ∀ e ∈ (resolvePrivateKey env hk hist).1,
      e.isListen = false ∧ e.isGo = false ∧ e.isSshDial = false ∧ e ≠ .wgWait := fun e he =>
    ⟨(resolvePrivateKey_events env hk hist e he).1, (resolvePrivateKey_events env hk hist e he).2.1,
      (resolvePrivateKey_events env hk hist e he).2.2.1,
      (resolvePrivateKey_events env hk hist e he).2.2.2.2⟩
  have hag : ∀ conf h e, e ∈ (addAgentAuth env (sshAgent d) conf h).1 →
      e.isListen = false ∧ e.isGo = false ∧ e.isSshDial = false ∧ e ≠ .wgWait := by
    intro conf h e he
    unfold addAgentAuth at he
    split at he
    · split at he
      · split at he <;>
        · simp only [List.mem_cons, List.mem_singleton, List.not_mem_nil, or_false] at he
          rcases he with rfl | rfl <;> exact ⟨rfl, rfl, rfl, by simp⟩
      · simp only [List.mem_singleton] at he
        subst he
        exact ⟨rfl, rfl, rfl, by simp⟩
    · simp at he
  intro e he
  unfold resolveCredentials at he
  split at he
  · simp at he
  · simp at he
  · rename_i username hu
    rcases hr : resolvePrivateKey env hk hist with ⟨evs₁, o₁⟩
    rw [hr] at hpk
    cases o₁ with
    | panicked err => simp only [hr] at he; exact hpk e he
    | returned => simp only [hr] at he; exact hpk e he
    | ok p =>
      obtain ⟨authMethods, callback⟩ := p
      simp only [hr] at he
      have hag2 := hag { User := username, Auth := authMethods, HostKeyCallback := callback }
        (hist ++ evs₁)
      rcases hr2 : addAgentAuth env (sshAgent d)
        { User := username, Auth := authMethods, HostKeyCallback := callback }
        (hist ++ evs₁) with ⟨evs₂, o₂⟩
      rw [hr2] at hag2
      simp only [hr2] at he
      have hmem : e ∈ evs₁ ∨ e ∈ evs₂ ∨ e = .print .noAuthMethod := by
        cases o₂ with
        | panicked err =>
          have := List.mem_append.1 he
          tauto
        | returned =>
          have := List.mem_append.1 he
          tauto
        | ok conf =>
          simp only at he
          split at he
          · simpa [or_assoc] using he
          · have := List.mem_append.1 he
            tauto
      rcases hmem with h1 | h1 | h1
      · exact hpk e h1
      · exact hag2 e h1
      · subst h1
        exact ⟨rfl, rfl, rfl, by simp⟩

/-- With the agent switched off, resolution makes no use of the agent socket and adds nothing
to the methods of the private-key step. -/
theorem resolveCredentials_agentOff (env : Env) (hk : HostKeyPolicy) (d : Attributes)
    (hist : List Event) (hoff : sshAgent d = false) :
    (∀ e ∈ (resolveCredentials env hk d hist).1, e.isAgentUse = false) ∧
    ∀ evs conf, resolveCredentials env hk d hist = (evs, .ok conf) →
      ∀ m ∈ conf.Auth, m.isAgent = false := by
  constructor
  · intro e he
    have hpk := resolvePrivateKey_events env hk hist
    unfold resolveCredentials at he
    split at he
    · simp at he
    · simp at he
    · rename_i username hu
      rcases hr : resolvePrivateKey env hk hist with ⟨evs₁, o₁⟩
      rw [hr] at hpk
      cases o₁ with
      | panicked err => simp only [hr] at he; exact (hpk e he).2.2.2.1
      | returned => simp only [hr] at he; exact (hpk e he).2.2.2.1
      | ok p =>
        obtain ⟨authMethods, callback⟩ := p
        simp only [hr, hoff, addAgentAuth, Bool.false_eq_true, if_false] at he
        split at he
        · simp only [List.append_nil, List.mem_append, List.mem_singleton] at he
          rcases he with h1 | h1
          · exact (hpk e h1).2.2.2.1
          · subst h1
            rfl
        · simp only [List.append_nil] at he
          exact (hpk e he).2.2.2.1
  · intro evs conf h m hm
    obtain ⟨username, auth, cb, evs₁, evs₂, -, hpk, hag, -, -⟩ := resolveCredentials_ok h
    obtain ⟨-, -, hauth⟩ := addAgentAuth_ok hag
    simp only at hauth
    rcases hauth with ⟨-, ha⟩ | ⟨hu, -⟩
    · rw [ha] at hm
      rcases resolvePrivateKey_ok hpk with ⟨-, -, ha1, -⟩ | ⟨-, -, -, key, signer, -, -, ha1⟩
      · subst ha1
        simp at hm
      · subst ha1
        simp only [List.mem_singleton] at hm
        subst hm
        rfl
    · rw [hoff] at hu
      exact absurd hu (by simp)

theorem launched_append (xs ys : List Event) :
    launched (xs ++ ys) = launched xs ++ launched ys := by
  induction xs with
  | nil => rfl
  | cons x xs ih => cases x <;> simp [launched, ih]

theorem launched_eq_nil (xs : List Event) (h : ∀ e ∈ xs, e.isGo = false) :
    launched xs = [] := by
  induction xs with
  | nil => rfl
  | cons x xs ih =>
    have hx := h x (List.mem_cons_self _ _)
    have := ih (fun e he => h e (List.mem_cons_of_mem _ he))
    cases x <;> simp_all [launched, Event.isGo]


/-! ## Claims about credential resolution -/

/-- C1: for a tunnel that passes credential resolution, the host-key callback in the client
configuration is the known-hosts callback when a private-key path is configured (the key was
then read and parsed), and `InsecureIgnoreHostKey` when none is configured, whatever happens
with the agent. -/
theorem C1_host_key_policy (env : Env) (file : String) (d : Attributes) (hist evs : List Event)
    (sshConf : ClientConfig)
    (h : resolveCredentials env (.knownHosts file) d hist = (evs, .ok sshConf)) :
    (env.qaPrivateKey ≠ "" →
      (∃ key signer, env.readFile hist env.qaPrivateKey = .ok key ∧
        env.parsePrivateKey key = .ok signer) ∧
      sshConf.HostKeyCallback = .knownHosts file) ∧
    (env.qaPrivateKey = "" → sshConf.HostKeyCallback = .insecureIgnoreHostKey) := by
  obtain ⟨username, auth, cb, evs₁, evs₂, -, hpk, hag, -, -⟩ := resolveCredentials_ok h
  obtain ⟨-, hcb, -⟩ := addAgentAuth_ok hag
  rcases resolvePrivateKey_ok hpk with ⟨hq, -, -, hc⟩ | ⟨hq, -, hc, key, signer, hr, hp, -⟩
  · exact ⟨fun hne => absurd hq hne, fun _ => by rw [hcb, hc]⟩
  · exact ⟨fun _ => ⟨⟨key, signer, hr, hp⟩, by rw [hcb, hc]⟩, fun he => absurd he hq⟩

/-- C1 at two samples: a tunnel with a private key and a running agent, and the known-hosts
callback it gets. -/
theorem C1_host_key_policy_witness :
    resolveCredentials envWithBoth (.knownHosts "/home/alice/.ssh/known_hosts")
        tunnelWithAgent [] =
      ([.readFile "/home/alice/.ssh/id_rsa", .lookupEnv "SSH_AUTH_SOCK",
          .dialUnix "/tmp/agent.sock"],
        .ok { User := "alice",
              Auth := [.publicKeys { id := 1 }, .publicKeysCallback { id := 2 }],
              HostKeyCallback := .knownHosts "/home/alice/.ssh/known_hosts" }) ∧
    ((envWithBoth.qaPrivateKey ≠ "" →
      (∃ key signer, envWithBoth.readFile [] envWithBoth.qaPrivateKey = .ok key ∧
        envWithBoth.parsePrivateKey key = .ok signer) ∧
      HostKeyPolicy.knownHosts "/home/alice/.ssh/known_hosts" =
        .knownHosts "/home/alice/.ssh/known_hosts") ∧
    (envWithBoth.qaPrivateKey = "" →
      HostKeyPolicy.knownHosts "/home/alice/.ssh/known_hosts" = .insecureIgnoreHostKey)) :=
  ⟨by decide,
   C1_host_key_policy envWithBoth "/home/alice/.ssh/known_hosts" tunnelWithAgent []
     [.readFile "/home/alice/.ssh/id_rsa", .lookupEnv "SSH_AUTH_SOCK",
       .dialUnix "/tmp/agent.sock"]
     { User := "alice", Auth := [.publicKeys { id := 1 }, .publicKeysCallback { id := 2 }],
       HostKeyCallback := .knownHosts "/home/alice/.ssh/known_hosts" }
     (by decide)⟩

/-- C4: for a tunnel that passes credential resolution, the method list is the private-key
method (there exactly when a key path is configured, the key having been read and parsed)
followed by the agent method (there exactly when `ssh_agent` parsed as true, the socket path
is in the environment and its dial succeeded); it has at most two entries; a tunnel launched
for the declaration carries this configuration, and the goroutine hands it to `ssh.Dial`. -/
theorem C4_auth_method_list (env : Env) (hk : HostKeyPolicy) (d : Attributes)
    (hist evs : List Event) (sshConf : ClientConfig)
    (h : resolveCredentials env hk d hist = (evs, .ok sshConf)) :
    (∃ keyPart agentPart, sshConf.Auth = keyPart ++ agentPart ∧
      ((env.qaPrivateKey = "" ∧ keyPart = []) ∨
        (env.qaPrivateKey ≠ "" ∧ ∃ key signer, env.readFile hist env.qaPrivateKey = .ok key ∧
          env.parsePrivateKey key = .ok signer ∧ keyPart = [.publicKeys signer])) ∧
      (((sshAgent d = false ∨ env.sshAuthSock = none) ∧ agentPart = []) ∨
        (sshAgent d = true ∧ ∃ sock conn, env.sshAuthSock = some sock ∧
          env.dialUnix (hist ++ keyPart.map (fun _ => Event.readFile env.qaPrivateKey) ++
            [.lookupEnv "SSH_AUTH_SOCK"]) sock = .ok conn ∧
          agentPart = [.publicKeysCallback conn]))) ∧
    sshConf.Auth.length ≤ 2 ∧
    (∀ path t, t ∈ launched (processTunnel env hk path d hist).1 → t.sshConf = sshConf) ∧
    (∀ (net : Net) (t : Tunnel) (tr : List Event),
      (step net t { pc := .dial, trace := tr }).trace = tr ++ [.sshDial t.host t.sshConf]) := by
  obtain ⟨username, auth, cb, evs₁, evs₂, -, hpk, hag, -, -⟩ := resolveCredentials_ok h
  obtain ⟨-, -, hauth⟩ := addAgentAuth_ok hag
  simp only at hauth
  have hshape : ∃ keyPart agentPart, sshConf.Auth = keyPart ++ agentPart ∧
      ((env.qaPrivateKey = "" ∧ keyPart = []) ∨
        (env.qaPrivateKey ≠ "" ∧ ∃ key signer, env.readFile hist env.qaPrivateKey = .ok key ∧
          env.parsePrivateKey key = .ok signer ∧ keyPart = [.publicKeys signer])) ∧
      (((sshAgent d = false ∨ env.sshAuthSock = none) ∧ agentPart = []) ∨
        (sshAgent d = true ∧ ∃ sock conn, env.sshAuthSock = some sock ∧
          env.dialUnix (hist ++ keyPart.map (fun _ => Event.readFile env.qaPrivateKey) ++
            [.lookupEnv "SSH_AUTH_SOCK"]) sock = .ok conn ∧
          agentPart = [.publicKeysCallback conn])) := by
    rcases resolvePrivateKey_ok hpk with ⟨hq, he, ha, -⟩ | ⟨hq, he, -, key, signer, hr, hp, ha⟩
    · subst ha he
      rcases hauth with ⟨hno, ha2⟩ | ⟨hu, sock, conn, hs, hd, ha2⟩
      · exact ⟨[], [], by simpa using ha2, Or.inl ⟨hq, rfl⟩, Or.inl ⟨hno, rfl⟩⟩
      · exact ⟨[], [.publicKeysCallback conn], by simpa using ha2, Or.inl ⟨hq, rfl⟩,
          Or.inr ⟨hu, sock, conn, hs, by simpa using hd, rfl⟩⟩
    · subst ha he
      rcases hauth with ⟨hno, ha2⟩ | ⟨hu, sock, conn, hs, hd, ha2⟩
      · exact ⟨[.publicKeys signer], [], by simpa using ha2,
          Or.inr ⟨hq, key, signer, hr, hp, rfl⟩, Or.inl ⟨hno, rfl⟩⟩
      · exact ⟨[.publicKeys signer], [.publicKeysCallback conn], by simpa using ha2,
          Or.inr ⟨hq, key, signer, hr, hp, rfl⟩,
          Or.inr ⟨hu, sock, conn, hs, by simpa using hd, rfl⟩⟩
  refine ⟨hshape, ?_, ?_, ?_⟩
  · obtain ⟨keyPart, agentPart, heq, hk1, ha1⟩ := hshape
    have h1 : keyPart.length ≤ 1 := by
      rcases hk1 with ⟨-, hk⟩ | ⟨-, _, _, -, -, hk⟩ <;> simp [hk]
    have h2 : agentPart.length ≤ 1 := by
      rcases ha1 with ⟨-, ha⟩ | ⟨-, _, _, -, -, ha⟩ <;> simp [ha]
    rw [heq, List.length_append]
    omega
  · intro path t ht
    unfold processTunnel at ht
    simp only [h] at ht
    split at ht
    · simp only [launched_append, launched_eq_nil evs (fun e he =>
        (resolveCredentials_events env hk d hist e (by rw [h]; exact he)).2.1)] at ht
      simp [launched] at ht
    · simp only [launched_append, launched_eq_nil evs (fun e he =>
        (resolveCredentials_events env hk d hist e (by rw [h]; exact he)).2.1)] at ht
      simp only [List.nil_append, launched, List.mem_singleton] at ht
      rw [ht]
  · intro net t tr
    simp only [step]
    split <;> rfl

/-- C4 at a sample: with a private key and a running agent the list is the key method
followed by the agent method. -/
theorem C4_auth_method_list_witness :
    ∃ evs sshConf,
      resolveCredentials envWithBoth knownHostsOfAlice tunnelWithAgent [] = (evs, .ok sshConf) ∧
      sshConf.Auth = [.publicKeys { id := 1 }, .publicKeysCallback { id := 2 }] ∧
      sshConf.Auth.length ≤ 2 :=
  ⟨[.readFile "/home/alice/.ssh/id_rsa", .lookupEnv "SSH_AUTH_SOCK",
      .dialUnix "/tmp/agent.sock"],
   { User := "alice", Auth := [.publicKeys { id := 1 }, .publicKeysCallback { id := 2 }],
     HostKeyCallback := knownHostsOfAlice },
   by decide, rfl,
   (C4_auth_method_list envWithBoth knownHostsOfAlice tunnelWithAgent []
     [.readFile "/home/alice/.ssh/id_rsa", .lookupEnv "SSH_AUTH_SOCK",
       .dialUnix "/tmp/agent.sock"]
     { User := "alice", Auth := [.publicKeys { id := 1 }, .publicKeysCallback { id := 2 }],
       HostKeyCallback := knownHostsOfAlice }
     (by decide)).2.1⟩

/-- C8: for a declaration whose `user` attribute is empty (or missing), the user name is the
`Username` of the current-user lookup, and so is the `User` of every client configuration
built for it. -/
theorem C8_empty_user_is_current_user (env : Env) (d : Attributes) (currentUser : User)
    (hempty : lookupAttr d "user" = "") (hcur : env.currentUser = .ok currentUser) :
    resolveUsername env d = .ok currentUser.Username ∧
    ∀ hk hist evs sshConf, resolveCredentials env hk d hist = (evs, .ok sshConf) →
      sshConf.User = currentUser.Username := by
  have hu : resolveUsername env d = .ok currentUser.Username := by
    unfold resolveUsername
    simp [hempty, hcur]
  refine ⟨hu, ?_⟩
  intro hk hist evs sshConf h
  obtain ⟨username, auth, cb, evs₁, evs₂, hu2, -, hag, -, -⟩ := resolveCredentials_ok h
  obtain ⟨huser, -, -⟩ := addAgentAuth_ok hag
  rw [hu] at hu2
  simp only [Outcome.ok.injEq] at hu2
  rw [huser, ← hu2]

/-- C8 at a sample: the declaration with `user = ""` run by alice. -/
theorem C8_empty_user_is_current_user_witness :
    lookupAttr tunnelWithAgent "user" = "" ∧ envWithAgent.currentUser = .ok alice ∧
    resolveUsername envWithAgent tunnelWithAgent = .ok "alice" ∧
    resolveCredentials envWithAgent knownHostsOfAlice tunnelWithAgent [] =
      ([.lookupEnv "SSH_AUTH_SOCK", .dialUnix "/tmp/agent.sock"],
       .ok { User := "alice", Auth := [.publicKeysCallback { id := 2 }],
             HostKeyCallback := .insecureIgnoreHostKey }) :=
  ⟨by decide, rfl,
   (C8_empty_user_is_current_user envWithAgent tunnelWithAgent alice (by decide) rfl).1,
   by decide⟩

/-- C10: the agent is switched on exactly when the `ssh_agent` attribute is one of the six
strings `strconv.ParseBool` reads as true; for any other value (the empty one of a missing
attribute included) the parse error is dropped, `sshAgent` is false, no agent socket is
looked up or dialled and no agent-backed method is in the configuration. -/
theorem C10_agent_switch (d : Attributes) :
    (sshAgent d = true ↔ lookupAttr d "ssh_agent" ∈ ["1", "t", "T", "TRUE", "true", "True"]) ∧
    (lookupAttr d "ssh_agent" ∉ ["1", "t", "T", "TRUE", "true", "True"] →
      sshAgent d = false ∧
      ∀ env hk hist,
        (∀ e ∈ (resolveCredentials env hk d hist).1, e.isAgentUse = false) ∧
        ∀ evs conf, resolveCredentials env hk d hist = (evs, .ok conf) →
          ∀ m ∈ conf.Auth, m.isAgent = false) ∧
    (lookupAttr [] "ssh_agent" = "" ∧ sshAgent [] = false) ∧
    sshAgent [("ssh_agent", "")] = false ∧
    ((parseBool "yes").2 ≠ none ∧ sshAgent [("ssh_agent", "yes")] = false) := by
  have hiff : sshAgent d = true ↔
      lookupAttr d "ssh_agent" ∈ ["1", "t", "T", "TRUE", "true", "True"] := by
    unfold sshAgent parseBool
    constructor
    · intro h
      by_contra hn
      have hn2 : lookupAttr d "ssh_agent" ∉ ["1", "t", "T", "true", "TRUE", "True"] := by
        simp only [List.mem_cons, List.mem_singleton, List.not_mem_nil, or_false] at hn ⊢
        tauto
      rw [if_neg hn2] at h
      split at h <;> simp at h
    · intro h
      have h2 : lookupAttr d "ssh_agent" ∈ ["1", "t", "T", "true", "TRUE", "True"] := by
        simp only [List.mem_cons, List.mem_singleton, List.not_mem_nil, or_false] at h ⊢
        tauto
      rw [if_pos h2]
  refine ⟨hiff, ?_, ⟨by decide, by decide⟩, by decide, ⟨by decide, by decide⟩⟩
  intro hn
  have hoff : sshAgent d = false := by
    cases hs : sshAgent d
    · rfl
    · exact absurd (hiff.1 hs) hn
  exact ⟨hoff, fun env hk hist => resolveCredentials_agentOff env hk d hist hoff⟩

/-- C10 at a sample: `ssh_agent = "yes"` leaves the agent off even with a socket present. -/
theorem C10_agent_switch_witness :
    lookupAttr tunnelYesAgent "ssh_agent" ∉ ["1", "t", "T", "TRUE", "true", "True"] ∧
    sshAgent tunnelYesAgent = false ∧
    resolveCredentials envWithBoth knownHostsOfAlice tunnelYesAgent [] =
      ([.readFile "/home/alice/.ssh/id_rsa"],
       .ok { User := "bob", Auth := [.publicKeys { id := 1 }],
             HostKeyCallback := knownHostsOfAlice }) :=
  ⟨by decide, ((C10_agent_switch tunnelYesAgent).2.1 (by decide)).1, by decide⟩

/-! ## Claims about failing tunnels -/

/-- The loop body for a declaration without private key and usable agent. -/
theorem processTunnel_noAuth (env : Env) (hk : HostKeyPolicy) (path : List String)
    (d : Attributes) (hist : List Event) (hkey : env.qaPrivateKey = "")
    (hagent : sshAgent d = false ∨ env.sshAuthSock = none) :
    processTunnel env hk path d hist =
      match resolveUsername env d with
      | .ok _ =>
        ((if sshAgent d = true then [Event.lookupEnv "SSH_AUTH_SOCK"] else []) ++
          [.print .noAuthMethod], .returned)
      | .returned => ([], .returned)
      | .panicked err => ([], .panicked err) := by
  have hr := resolveCredentials_noAuth env hk d hist hkey hagent
  rw [processTunnel_of_not_ok, hr]
  · cases resolveUsername env d <;> rfl
  · intro conf
    rw [hr]
    cases resolveUsername env d <;> simp

/-- C2: a declaration with no private key configured and no usable agent (agent off, or no
socket path in the environment) is not scheduled: its loop body calls neither `net.Listen`
nor `go` nor `ssh.Dial`, launches no tunnel and does not fall through; once the user name is
resolved, it prints the configuration error and returns. -/
theorem C2_empty_auth_not_scheduled (env : Env) (hk : HostKeyPolicy) (path : List String)
    (d : Attributes) (hist : List Event) (hkey : env.qaPrivateKey = "")
    (hagent : sshAgent d = false ∨ env.sshAuthSock = none) :
    (∀ e ∈ (processTunnel env hk path d hist).1,
      e.isListen = false ∧ e.isGo = false ∧ e.isSshDial = false) ∧
    launched (processTunnel env hk path d hist).1 = [] ∧
    (processTunnel env hk path d hist).2 ≠ .ok () ∧
    (∀ username, resolveUsername env d = .ok username →
      (processTunnel env hk path d hist).2 = .returned ∧
      Event.print .noAuthMethod ∈ (processTunnel env hk path d hist).1) := by
  have hp := processTunnel_noAuth env hk path d hist hkey hagent
  have hev : ∀ e ∈ (processTunnel env hk path d hist).1,
      e.isListen = false ∧ e.isGo = false ∧ e.isSshDial = false := by
    intro e he
    rw [hp] at he
    cases hu : resolveUsername env d with
    | returned => simp [hu] at he
    | panicked err => simp [hu] at he
    | ok u =>
      simp only [hu, List.mem_append, List.mem_singleton] at he
      rcases he with he | he
      · split at he
        · simp only [List.mem_singleton] at he
          subst he
          exact ⟨rfl, rfl, rfl⟩
        · simp at he
      · subst he
        exact ⟨rfl, rfl, rfl⟩
  refine ⟨hev, launched_eq_nil _ (fun e he => (hev e he).2.1), ?_, ?_⟩
  · rw [hp]
    cases resolveUsername env d <;> simp
  · intro username hu
    rw [hp, hu]
    simp

/-- C2 at a sample: no key, agent attribute missing; the declaration only prints the error. -/
theorem C2_empty_auth_not_scheduled_witness :
    envWithAgent.qaPrivateKey = "" ∧ sshAgent tunnelNoAgent = false ∧
    processTunnel envWithAgent knownHostsOfAlice ["root"] tunnelNoAgent [] =
      ([.print .noAuthMethod], .returned) ∧
    launched (processTunnel envWithAgent knownHostsOfAlice ["root"] tunnelNoAgent []).1 = [] :=
  ⟨rfl, by decide, by decide,
   (C2_empty_auth_not_scheduled envWithAgent knownHostsOfAlice ["root"] tunnelNoAgent []
     rfl (Or.inl (by decide))).2.1⟩

/-- C5: when a private-key path is configured and the file cannot be read or its content
cannot be parsed, the loop body makes no use of the agent socket (no lookup, no dial), calls
neither `net.Listen` nor `go` nor `ssh.Dial`, launches no tunnel and does not fall through,
whatever `ssh_agent` says and whatever the environment holds; once the user name is
resolved, `main` returns. -/
theorem C5_key_failure_aborts (env : Env) (hk : HostKeyPolicy) (path : List String)
    (d : Attributes) (hist : List Event) (hkey : env.qaPrivateKey ≠ "")
    (hfail : (∃ err, env.readFile hist env.qaPrivateKey = .error err) ∨
      (∃ key err, env.readFile hist env.qaPrivateKey = .ok key ∧
        env.parsePrivateKey key = .error err)) :
    (∀ e ∈ (processTunnel env hk path d hist).1,
      e.isAgentUse = false ∧ e.isListen = false ∧ e.isGo = false ∧ e.isSshDial = false) ∧
    launched (processTunnel env hk path d hist).1 = [] ∧
    (processTunnel env hk path d hist).2 ≠ .ok () ∧
    (∀ username, resolveUsername env d = .ok username →
      (processTunnel env hk path d hist).2 = .returned) := by
  obtain ⟨msg, hr⟩ := resolveCredentials_keyFailure env hk d hist hkey hfail
  have hp : processTunnel env hk path d hist =
      match resolveUsername env d with
      | .ok _ => ([.readFile env.qaPrivateKey, .print msg], .returned)
      | .returned => ([], .returned)
      | .panicked err => ([], .panicked err) := by
    rw [processTunnel_of_not_ok, hr]
    · cases resolveUsername env d <;> rfl
    · intro conf
      rw [hr]
      cases resolveUsername env d <;> simp
  have hev : ∀ e ∈ (processTunnel env hk path d hist).1,
      e.isAgentUse = false ∧ e.isListen = false ∧ e.isGo = false ∧ e.isSshDial = false := by
    intro e he
    rw [hp] at he
    cases hu : resolveUsername env d with
    | returned => simp [hu] at he
    | panicked err => simp [hu] at he
    | ok u =>
      simp only [hu, List.mem_cons, List.mem_singleton, List.not_mem_nil, or_false] at he
      rcases he with rfl | rfl <;> exact ⟨rfl, rfl, rfl, rfl⟩
  refine ⟨hev, launched_eq_nil _ (fun e he => (hev e he).2.2.1), ?_, ?_⟩
  · rw [hp]
    cases resolveUsername env d <;> simp
  · intro username hu
    rw [hp, hu]

/-- C5 at a sample: an unreadable key file with the agent on and a socket present. -/
theorem C5_key_failure_aborts_witness :
    envBadKey.qaPrivateKey ≠ "" ∧ sshAgent tunnelWithAgent = true ∧
    envBadKey.sshAuthSock = some "/tmp/agent.sock" ∧
    processTunnel envBadKey knownHostsOfAlice ["root"] tunnelWithAgent [] =
      ([.readFile "/home/alice/.ssh/missing", .print (.unableToReadKey "no such file")],
       .returned) ∧
    launched (processTunnel envBadKey knownHostsOfAlice ["root"] tunnelWithAgent []).1 = [] :=
  ⟨by decide, by decide, rfl, by decide,
   (C5_key_failure_aborts envBadKey knownHostsOfAlice ["root"] tunnelWithAgent []
     (by decide) (Or.inl ⟨"no such file", rfl⟩)).2.1⟩

/-! ## The run over the whole plan -/

/-- The loop body never calls `wg.Wait`. -/
theorem processTunnel_no_wgWait (env : Env) (hk : HostKeyPolicy) (path : List String)
    (d : Attributes) (hist : List Event) :
    ∀ e ∈ (processTunnel env hk path d hist).1, e ≠ .wgWait := by
  intro e he
  have hres := resolveCredentials_events env hk d hist
  unfold processTunnel at he
  rcases hr : resolveCredentials env hk d hist with ⟨evs, o⟩
  rw [hr] at hres
  simp only [hr] at he
  cases o with
  | returned => exact (hres e he).2.2.2
  | panicked err => exact (hres e he).2.2.2
  | ok conf =>
    simp only at he
    split at he
    · simp only [List.mem_append, List.mem_singleton] at he
      rcases he with (he | he) | he
      · exact (hres e he).2.2.2
      · subst he; simp
      · subst he; simp
    · simp only [List.mem_append, List.mem_singleton, List.mem_cons, List.not_mem_nil,
        or_false] at he
      rcases he with (he | he) | he | he | he | he
      · exact (hres e he).2.2.2
      all_goals subst he; simp

theorem runResources_no_wgWait (env : Env) (hk : HostKeyPolicy) (path : List String)
    (rs : List ResourceState) :
    ∀ hist : List Event, (∀ e ∈ hist, e ≠ .wgWait) →
      ∀ e ∈ (runResources env hk path hist rs).1, e ≠ .wgWait := by
  induction rs with
  | nil => intro hist hh e he; exact hh e he
  | cons r rs ih =>
    intro hist hh e he
    unfold runResources at he
    split at he
    · split at he
      · exact hh e he
      · rename_i d hd
        have hp := processTunnel_no_wgWait env hk path d hist
        have hh2 : ∀ e ∈ hist ++ (processTunnel env hk path d hist).1, e ≠ .wgWait := by
          intro e he
          rcases List.mem_append.1 he with h | h
          · exact hh e h
          · exact hp e h
        split at he
        · rename_i evs u hpr
          rw [hpr] at hh2
          exact ih _ hh2 e he
        · rename_i evs hpr
          rw [hpr] at hh2
          exact hh2 e he
        · rename_i evs err hpr
          rw [hpr] at hh2
          exact hh2 e he
    · exact ih hist hh e he

theorem runModules_no_wgWait (env : Env) (hk : HostKeyPolicy) (ms : List ModuleState) :
    ∀ hist : List Event, (∀ e ∈ hist, e ≠ .wgWait) →
      ∀ e ∈ (runModules env hk hist ms).1, e ≠ .wgWait := by
  induction ms with
  | nil => intro hist hh e he; exact hh e he
  | cons m ms ih =>
    intro hist hh e he
    unfold runModules at he
    have hr := runResources_no_wgWait env hk m.Path m.Resources hist hh
    split at he
    · rename_i hist₁ u heq
      rw [heq] at hr
      exact ih _ hr e he
    · rename_i hist₁ heq
      rw [heq] at hr
      exact hr e he
    · rename_i hist₁ err heq
      rw [heq] at hr
      exact hr e he

/-- A loop over resources that meets a declaration whose body returns does not look at the
resources after it. -/
theorem runResources_returned (env : Env) (hk : HostKeyPolicy) (path : List String)
    (d : Attributes) (rs₂ : List ResourceState)
    (hret : ∀ hist, (processTunnel env hk path d hist).2 = .returned)
    (rs₁ : List ResourceState) :
    ∀ hist : List Event,
      runResources env hk path hist (rs₁ ++ { Type_ := "ssh_tunnel", Primary := some d } :: rs₂) =
        runResources env hk path hist (rs₁ ++ [{ Type_ := "ssh_tunnel", Primary := some d }]) ∧
      (runResources env hk path hist
        (rs₁ ++ [{ Type_ := "ssh_tunnel", Primary := some d }])).2 ≠ .ok () := by
  induction rs₁ with
  | nil =>
    intro hist
    have h := hret hist
    rcases hp : processTunnel env hk path d hist with ⟨evs, o⟩
    rw [hp] at h
    simp only at h
    subst h
    simp [runResources, hp]
  | cons r rs₁ ih =>
    intro hist
    simp only [List.cons_append]
    unfold runResources
    split
    · split
      · simp
      · rename_i d₁ hd₁
        split
        · exact ih _
        · simp
        · simp
    · exact ih _

/-- A loop over modules that meets such a declaration does not look at what follows it. -/
theorem runModules_returned (env : Env) (hk : HostKeyPolicy) (path : List String)
    (d : Attributes) (rs₁ rs₂ : List ResourceState) (ms₂ : List ModuleState)
    (hret : ∀ hist, (processTunnel env hk path d hist).2 = .returned)
    (ms₁ : List ModuleState) :
    ∀ hist : List Event,
      runModules env hk hist (ms₁ ++
          { Path := path,
            Resources := rs₁ ++ { Type_ := "ssh_tunnel", Primary := some d } :: rs₂ } :: ms₂) =
        runModules env hk hist (ms₁ ++
          [{ Path := path,
             Resources := rs₁ ++ [{ Type_ := "ssh_tunnel", Primary := some d }] }]) ∧
      (runModules env hk hist (ms₁ ++
          [{ Path := path,
             Resources := rs₁ ++ [{ Type_ := "ssh_tunnel", Primary := some d }] }])).2 ≠
        .ok () := by
  induction ms₁ with
  | nil =>
    intro hist
    obtain ⟨h1, h2⟩ := runResources_returned env hk path d rs₂ hret rs₁ hist
    simp only [List.nil_append]
    unfold runModules
    simp only [h1]
    rcases hr : runResources env hk path hist
      (rs₁ ++ [{ Type_ := "ssh_tunnel", Primary := some d }]) with ⟨hist₁, o⟩
    rw [hr] at h2
    cases o with
    | ok u => exact absurd rfl h2
    | returned => simp [hr]
    | panicked err => simp [hr]
  | cons m ms₁ ih =>
    intro hist
    simp only [List.cons_append]
    unfold runModules
    split
    · exact ih _
    · simp
    · simp

/-- The events that happen before a crash are an initial part of the main goroutine's. -/
theorem untilCrash_prefix (net : Net) (sched : Sched) (rest : List Event) :
    ∀ done, ∃ k, (untilCrash net sched done rest).1 = done ++ rest.take k := by
  induction rest with
  | nil =>
    intro done
    refine ⟨0, ?_⟩
    unfold untilCrash
    split <;> simp
  | cons e rest ih =>
    intro done
    unfold untilCrash
    split
    · exact ⟨0, by simp⟩
    · obtain ⟨k, hk⟩ := ih (done ++ [e])
      exact ⟨k + 1, by simp [hk]⟩

/-- When no goroutine has panicked at any point of the main goroutine's events, all of them
happen. -/
theorem untilCrash_no_crash (net : Net) (sched : Sched) (rest : List Event) :
    ∀ done, (∀ k, k ≤ rest.length → crashed net sched (done ++ rest.take k) = none) →
      untilCrash net sched done rest = (done ++ rest, none) := by
  induction rest with
  | nil =>
    intro done h
    have h0 := h 0 (Nat.le_refl _)
    simp only [List.take_nil, List.append_nil] at h0
    unfold untilCrash
    simp [h0]
  | cons e rest ih =>
    intro done h
    have h0 := h 0 (Nat.zero_le _)
    simp only [List.take_zero, List.append_nil] at h0
    unfold untilCrash
    simp only [h0]
    rw [ih (done ++ [e])]
    · simp
    · intro k hk
      have := h (k + 1) (by simpa using hk)
      simpa using this

/-- The loop over resources, split at any point. -/
theorem runResources_append (env : Env) (hk : HostKeyPolicy) (path : List String)
    (rs₁ rs₂ : List ResourceState) :
    ∀ hist : List Event,
      runResources env hk path hist (rs₁ ++ rs₂) =
        match runResources env hk path hist rs₁ with
        | (hist₁, .ok _) => runResources env hk path hist₁ rs₂
        | (hist₁, .returned) => (hist₁, .returned)
        | (hist₁, .panicked err) => (hist₁, .panicked err) := by
  induction rs₁ with
  | nil => intro hist; simp [runResources]
  | cons r rs₁ ih =>
    intro hist
    simp only [List.cons_append, runResources]
    by_cases ht : r.Type_ = "ssh_tunnel"
    · simp only [ht, if_true]
      cases hp : r.Primary with
      | none => rfl
      | some d₁ =>
        simp only
        rcases hb : processTunnel env hk path d₁ hist with ⟨evs, o⟩
        cases o with
        | ok u => simp only; exact ih _
        | returned => rfl
        | panicked err => rfl
    · simp only [ht, if_false]
      exact ih _

/-- The loop over modules, split at any point. -/
theorem runModules_append (env : Env) (hk : HostKeyPolicy) (ms₁ ms₂ : List ModuleState) :
    ∀ hist : List Event,
      runModules env hk hist (ms₁ ++ ms₂) =
        match runModules env hk hist ms₁ with
        | (hist₁, .ok _) => runModules env hk hist₁ ms₂
        | (hist₁, .returned) => (hist₁, .returned)
        | (hist₁, .panicked err) => (hist₁, .panicked err) := by
  induction ms₁ with
  | nil => intro hist; simp [runModules]
  | cons m ms₁ ih =>
    intro hist
    simp only [List.cons_append, runModules]
    rcases hb : runResources env hk m.Path hist m.Resources with ⟨hist₁, o⟩
    cases o with
    | ok u => simp only; exact ih _
    | returned => rfl
    | panicked err => rfl

/-- When the loops do not finish, the main goroutine alone does just what the loops do. -/
theorem runMain_of_not_ok (env : Env) (hk : HostKeyPolicy) (ms : List ModuleState)
    (h : (runModules env hk [] ms).2 ≠ .ok ()) :
    runMain env hk ms = runModules env hk [] ms := by
  unfold runMain
  generalize runModules env hk [] ms = r at h ⊢
  obtain ⟨hist, o⟩ := r
  cases o with
  | ok u => exact absurd rfl h
  | returned => rfl
  | panicked err => rfl

/-- When the main goroutine alone does not reach `wg.Wait`, the process neither waits there
nor runs to the end of `main`. -/
theorem program_exit_of_not_ok (env : Env) (hk : HostKeyPolicy) (net : Net) (sched : Sched)
    (ms : List ModuleState) (h : (runMain env hk ms).2 ≠ .ok ()) :
    (program env hk net sched ms).2 ≠ .waiting ∧ (program env hk net sched ms).2 ≠ .finished := by
  unfold program
  generalize runMain env hk ms = r at h ⊢
  obtain ⟨full, out⟩ := r
  simp only
  generalize untilCrash net sched [] full = u
  obtain ⟨done, c⟩ := u
  cases c with
  | some err => simp
  | none =>
    cases out with
    | ok u => exact absurd rfl h
    | returned => simp
    | panicked err => simp

/-- What happens in the process is among what the main goroutine alone does. -/
theorem program_trace_subset (env : Env) (hk : HostKeyPolicy) (net : Net) (sched : Sched)
    (ms : List ModuleState) :
    ∀ e ∈ (program env hk net sched ms).1, e ∈ (runMain env hk ms).1 := by
  intro e he
  unfold program at he
  generalize runMain env hk ms = r at he ⊢
  obtain ⟨full, out⟩ := r
  simp only at he ⊢
  obtain ⟨k, hk⟩ := untilCrash_prefix net sched full []
  generalize untilCrash net sched [] full = u at he hk
  obtain ⟨done, c⟩ := u
  simp only [List.nil_append] at hk
  have hdone : e ∈ done := by
    cases c with
    | some err => exact he
    | none =>
      cases out with
      | ok u =>
        simp only at he
        split at he <;> exact he
      | returned => exact he
      | panicked err => exact he
  rw [hk] at hdone
  exact List.mem_of_mem_take hdone

/-- C3, as the code has it: a configuration error of one tunnel ends the whole run. When a
declaration has no private key and no usable agent (and its user name resolves), the process
behaves as if the plan ended with that declaration: nothing after it is resolved, bound or
launched, the main goroutine reaches neither `wg.Wait` nor the end of the loops. When the
declaration is reached (the modules and resources before it fall through and no goroutine
has panicked on the way), `main` prints the configuration error and returns there, which
ends the process and the tunnels launched before. -/
theorem C3_config_error_ends_run (env : Env) (hk : HostKeyPolicy) (net : Net) (sched : Sched)
    (path : List String) (d : Attributes) (username : String) (ms₁ ms₂ : List ModuleState)
    (rs₁ rs₂ : List ResourceState) (hkey : env.qaPrivateKey = "")
    (hagent : sshAgent d = false ∨ env.sshAuthSock = none)
    (huser : resolveUsername env d = .ok username) :
    program env hk net sched (ms₁ ++
        { Path := path,
          Resources := rs₁ ++ { Type_ := "ssh_tunnel", Primary := some d } :: rs₂ } :: ms₂) =
      program env hk net sched (ms₁ ++
        [{ Path := path,
           Resources := rs₁ ++ [{ Type_ := "ssh_tunnel", Primary := some d }] }]) ∧
    (program env hk net sched (ms₁ ++
        { Path := path,
          Resources := rs₁ ++ { Type_ := "ssh_tunnel", Primary := some d } :: rs₂ } ::
            ms₂)).2 ≠ .waiting ∧
    (program env hk net sched (ms₁ ++
        { Path := path,
          Resources := rs₁ ++ { Type_ := "ssh_tunnel", Primary := some d } :: rs₂ } ::
            ms₂)).2 ≠ .finished ∧
    Event.wgWait ∉ (program env hk net sched (ms₁ ++
        { Path := path,
          Resources := rs₁ ++ { Type_ := "ssh_tunnel", Primary := some d } :: rs₂ } ::
            ms₂)).1 ∧
    (∀ hist₁ hist₂ : List Event,
      runModules env hk [] ms₁ = (hist₁, .ok ()) →
      runResources env hk path hist₁ rs₁ = (hist₂, .ok ()) →
      (∀ k, k ≤ (hist₂ ++ ((if sshAgent d = true then [Event.lookupEnv "SSH_AUTH_SOCK"] else []) ++
          [Event.print Msg.noAuthMethod])).length →
        crashed net sched ((hist₂ ++
          ((if sshAgent d = true then [Event.lookupEnv "SSH_AUTH_SOCK"] else []) ++
            [Event.print Msg.noAuthMethod])).take k) = none) →
      program env hk net sched (ms₁ ++
          { Path := path,
            Resources := rs₁ ++ { Type_ := "ssh_tunnel", Primary := some d } :: rs₂ } :: ms₂) =
        (hist₂ ++ ((if sshAgent d = true then [Event.lookupEnv "SSH_AUTH_SOCK"] else []) ++
          [.print .noAuthMethod]), .returned)) := by
  have hbody : ∀ hist, processTunnel env hk path d hist =
      ((if sshAgent d = true then [Event.lookupEnv "SSH_AUTH_SOCK"] else []) ++
        [.print .noAuthMethod], .returned) := by
    intro hist
    rw [processTunnel_noAuth env hk path d hist hkey hagent, huser]
  have hret : ∀ hist, (processTunnel env hk path d hist).2 = .returned := by
    intro hist
    rw [hbody]
  obtain ⟨h1, h2⟩ := runModules_returned env hk path d rs₁ rs₂ ms₂ hret ms₁ []
  have hmain : runMain env hk (ms₁ ++
        { Path := path,
          Resources := rs₁ ++ { Type_ := "ssh_tunnel", Primary := some d } :: rs₂ } :: ms₂) =
      runMain env hk (ms₁ ++
        [{ Path := path,
           Resources := rs₁ ++ [{ Type_ := "ssh_tunnel", Primary := some d }] }]) := by
    unfold runMain
    rw [h1]
  have heq : program env hk net sched (ms₁ ++
        { Path := path,
          Resources := rs₁ ++ { Type_ := "ssh_tunnel", Primary := some d } :: rs₂ } :: ms₂) =
      program env hk net sched (ms₁ ++
        [{ Path := path,
           Resources := rs₁ ++ [{ Type_ := "ssh_tunnel", Primary := some d }] }]) := by
    unfold program
    rw [hmain]
  have hnw := runModules_no_wgWait env hk (ms₁ ++
        [{ Path := path,
           Resources := rs₁ ++ [{ Type_ := "ssh_tunnel", Primary := some d }] }]) []
    (by simp)
  have hcut : runMain env hk (ms₁ ++
        [{ Path := path,
           Resources := rs₁ ++ [{ Type_ := "ssh_tunnel", Primary := some d }] }]) =
      runModules env hk [] (ms₁ ++
        [{ Path := path,
           Resources := rs₁ ++ [{ Type_ := "ssh_tunnel", Primary := some d }] }]) :=
    runMain_of_not_ok env hk _ h2
  have hexit := program_exit_of_not_ok env hk net sched (ms₁ ++
        [{ Path := path,
           Resources := rs₁ ++ [{ Type_ := "ssh_tunnel", Primary := some d }] }])
    (by rw [hcut]; exact h2)
  refine ⟨heq, ?_, ?_, ?_, ?_⟩
  · rw [heq]
    exact hexit.1
  · rw [heq]
    exact hexit.2
  · rw [heq]
    intro hmem
    have hin := program_trace_subset env hk net sched _ _ hmem
    rw [hcut] at hin
    exact hnw _ hin rfl
  · intro hist₁ hist₂ hms hrs hno
    have hrun : runModules env hk [] (ms₁ ++
          { Path := path,
            Resources := rs₁ ++ { Type_ := "ssh_tunnel", Primary := some d } :: rs₂ } :: ms₂) =
        (hist₂ ++ ((if sshAgent d = true then [Event.lookupEnv "SSH_AUTH_SOCK"] else []) ++
          [.print .noAuthMethod]), .returned) := by
      rw [h1, runModules_append, hms]
      simp only [runModules]
      rw [runResources_append, hrs]
      simp only [runResources, hbody, if_true]
    unfold program runMain
    rw [hrun]
    simp only
    rw [untilCrash_no_crash net sched _ [] (by simpa using hno)]
    simp

/-- C3 refuted at a sample: with no private key and a running agent, a declaration without
`ssh_agent` is a configuration error. The declaration after it, which on its own resolves,
binds and launches, is then neither bound nor launched; and with a tunnel launched before
the failing declaration, its session established and its loop running, `main` returns
without reaching `wg.Wait`. -/
theorem C3_counterexample :
    program envWithAgent knownHostsOfAlice netHealthy schedDuringSleep
        (planOf [tunnelWithAgent]) =
      ([.lookupEnv "SSH_AUTH_SOCK", .dialUnix "/tmp/agent.sock",
        .print (.forwarding ["root"] "127.0.0.1:9001" "10.0.0.5:80" "ssh.example:22"),
        .listen "127.0.0.1:9001", .wgAdd,
        .go { host := "ssh.example:22",
              sshConf := { User := "alice", Auth := [.publicKeysCallback { id := 2 }],
                           HostKeyCallback := .insecureIgnoreHostKey },
              localListener := { id := 3 }, remoteAddress := "10.0.0.5:80" },
        .sleep, .wgWait], .waiting) ∧
    program envWithAgent knownHostsOfAlice netHealthy schedDuringSleep
        (planOf [tunnelNoAgent, tunnelWithAgent]) =
      ([.print .noAuthMethod], .returned) ∧
    program envWithAgent knownHostsOfAlice netHealthy schedDuringSleep
        (planOf [tunnelWithAgent, tunnelNoAgent]) =
      ([.lookupEnv "SSH_AUTH_SOCK", .dialUnix "/tmp/agent.sock",
        .print (.forwarding ["root"] "127.0.0.1:9001" "10.0.0.5:80" "ssh.example:22"),
        .listen "127.0.0.1:9001", .wgAdd,
        .go { host := "ssh.example:22",
              sshConf := { User := "alice", Auth := [.publicKeysCallback { id := 2 }],
                           HostKeyCallback := .insecureIgnoreHostKey },
              localListener := { id := 3 }, remoteAddress := "10.0.0.5:80" },
        .sleep, .print .noAuthMethod], .returned) := by
  refine ⟨?_, ?_, ?_⟩ <;> decide

/-- C3, as the code has it, at a sample: a tunnel is launched and its session established,
then comes the failing declaration, then another good one; `main` returns at the failing
one. -/
theorem C3_config_error_ends_run_witness :
    envWithAgent.qaPrivateKey = "" ∧ sshAgent tunnelNoAgent = false ∧
    resolveUsername envWithAgent tunnelNoAgent = .ok "bob" ∧
    program envWithAgent knownHostsOfAlice netHealthy schedDuringSleep ([] ++
        { Path := ["root"],
          Resources := [{ Type_ := "ssh_tunnel", Primary := some tunnelWithAgent }] ++
            { Type_ := "ssh_tunnel", Primary := some tunnelNoAgent } ::
            [{ Type_ := "ssh_tunnel", Primary := some tunnelWithAgent }] } :: []) =
      ([.lookupEnv "SSH_AUTH_SOCK", .dialUnix "/tmp/agent.sock",
        .print (.forwarding ["root"] "127.0.0.1:9001" "10.0.0.5:80" "ssh.example:22"),
        .listen "127.0.0.1:9001", .wgAdd, .go sampleTunnel, .sleep] ++
        ((if sshAgent tunnelNoAgent = true then [Event.lookupEnv "SSH_AUTH_SOCK"] else []) ++
          [.print .noAuthMethod]), .returned) :=
  ⟨rfl, by decide, by decide,
   (C3_config_error_ends_run envWithAgent knownHostsOfAlice netHealthy schedDuringSleep ["root"]
     tunnelNoAgent "bob" [] [] [{ Type_ := "ssh_tunnel", Primary := some tunnelWithAgent }]
     [{ Type_ := "ssh_tunnel", Primary := some tunnelWithAgent }]
     rfl (Or.inl (by decide)) (by decide)).2.2.2.2 []
     [.lookupEnv "SSH_AUTH_SOCK", .dialUnix "/tmp/agent.sock",
      .print (.forwarding ["root"] "127.0.0.1:9001" "10.0.0.5:80" "ssh.example:22"),
      .listen "127.0.0.1:9001", .wgAdd, .go sampleTunnel, .sleep]
     rfl (by decide) (by decide)⟩

/-- The process at a sample where the SSH server of the first tunnel cannot be reached: its
goroutine panics during the pause of the main goroutine, and the second declaration is never
looked at. -/
theorem program_dial_failure_sample :
    program envWithAgent knownHostsOfAlice netUnreachable schedDuringSleep
        (planOf [tunnelWithAgent, tunnelNoAgent]) =
      ([.lookupEnv "SSH_AUTH_SOCK", .dialUnix "/tmp/agent.sock",
        .print (.forwarding ["root"] "127.0.0.1:9001" "10.0.0.5:80" "ssh.example:22"),
        .listen "127.0.0.1:9001", .wgAdd,
        .go { host := "ssh.example:22",
              sshConf := { User := "alice", Auth := [.publicKeysCallback { id := 2 }],
                           HostKeyCallback := .insecureIgnoreHostKey },
              localListener := { id := 3 }, remoteAddress := "10.0.0.5:80" },
        .sleep], .goroutinePanicked "connection refused") := by
  decide

/-! ## Claims about the accept loop -/

/-- C6 refuted at a sample: after an accepted connection whose channel cannot be opened the
loop is back at `Accept`, and the trace holds no `Close` of the accepted connection. -/
theorem C6_counterexample :
    run netClosedRemote sampleTunnel 2
        { pc := .accept { id := 4 }, trace := [.sshDial "ssh.example:22" sampleTunnel.sshConf,
            .accept { id := 3 }, .print (.errorAccepting "too many open files")] } =
      { pc := .accept { id := 4 },
        trace := [.sshDial "ssh.example:22" sampleTunnel.sshConf,
          .accept { id := 3 }, .print (.errorAccepting "too many open files"),
          .accept { id := 3 }, .channelDial { id := 4 } "10.0.0.5:80",
          .print (.errorOpening "10.0.0.5:80" "administratively prohibited")] } ∧
    Event.closeConn (.localConn { id := 5 }) ∉
      (run netClosedRemote sampleTunnel 2
        { pc := .accept { id := 4 }, trace := [.sshDial "ssh.example:22" sampleTunnel.sshConf,
            .accept { id := 3 }, .print (.errorAccepting "too many open files")] }).trace := by
  refine ⟨?_, ?_⟩ <;> decide

/-- C6, as the code has it: when the channel for an accepted connection cannot be opened, the
loop prints the error and is back at `Accept`; it starts no relay task and calls no `Close`:
the accepted connection stays open. -/
theorem C6_channel_failure_continues (net : Net) (t : Tunnel) (tr : List Event)
    (sshClientConn : SshClient) (localConn : Conn) (err : String)
    (hfail : net.channelDial tr sshClientConn t.remoteAddress = .error err) :
    step net t { pc := .channel sshClientConn localConn, trace := tr } =
      { pc := .accept sshClientConn,
        trace := tr ++ [.channelDial sshClientConn t.remoteAddress,
          .print (.errorOpening t.remoteAddress err)] } ∧
    (∀ e ∈ ((step net t { pc := .channel sshClientConn localConn, trace := tr }).trace.drop
        tr.length), e.isGoCopy = false ∧ e.isCloseConn = false) := by
  have hs : step net t { pc := .channel sshClientConn localConn, trace := tr } =
      { pc := .accept sshClientConn,
        trace := tr ++ [.channelDial sshClientConn t.remoteAddress,
          .print (.errorOpening t.remoteAddress err)] } := by
    simp only [step, hfail]
  refine ⟨hs, ?_⟩
  intro e he
  rw [hs] at he
  simp only [List.drop_left, List.mem_cons, List.mem_singleton, List.not_mem_nil,
    or_false] at he
  rcases he with rfl | rfl <;> exact ⟨rfl, rfl⟩

/-- C6, as the code has it, at a sample. -/
theorem C6_channel_failure_continues_witness :
    netClosedRemote.channelDial [.accept { id := 3 }] { id := 4 } sampleTunnel.remoteAddress =
      .error "administratively prohibited" ∧
    step netClosedRemote sampleTunnel
        { pc := .channel { id := 4 } { id := 5 }, trace := [.accept { id := 3 }] } =
      { pc := .accept { id := 4 },
        trace := [.accept { id := 3 }] ++ [.channelDial { id := 4 } sampleTunnel.remoteAddress,
          .print (.errorOpening sampleTunnel.remoteAddress "administratively prohibited")] } :=
  ⟨rfl,
   (C6_channel_failure_continues netClosedRemote sampleTunnel [.accept { id := 3 }] { id := 4 }
     { id := 5 } "administratively prohibited" rfl).1⟩

/-- Inside the loop the goroutine stays inside the loop, with the same session. -/
theorem run_stays_in_loop (net : Net) (t : Tunnel) (sshClientConn : SshClient) (n : Nat) :
    ∀ s : TaskState,
      (s.pc = .accept sshClientConn ∨ ∃ c, s.pc = .channel sshClientConn c) →
      ((run net t n s).pc = .accept sshClientConn ∨
        ∃ c, (run net t n s).pc = .channel sshClientConn c) := by
  induction n with
  | zero => intro s hs; exact hs
  | succ n ih =>
    intro s hs
    simp only [run]
    apply ih
    obtain ⟨pc, tr⟩ := s
    simp only at hs
    rcases hs with hs | ⟨c, hs⟩
    · subst hs
      simp only [step]
      split
      · exact Or.inl rfl
      · exact Or.inr ⟨_, rfl⟩
    · subst hs
      simp only [step]
      split <;> exact Or.inl rfl

/-- C7: in the accept loop, an accept error prints and leads back to `Accept`, opening no
channel and starting no relay task; a channel-open error leads back to `Accept`; at the head
of the loop the next action is `Accept` on the tunnel's listener; and whatever the answers of
`Accept` and of the channel opening, after any number of steps the goroutine is still in the
loop: it has neither stopped nor panicked. -/
theorem C7_accept_loop_never_stops (net : Net) (t : Tunnel) (sshClientConn : SshClient) :
    (∀ tr err, net.accept tr t.localListener = .error err →
      step net t { pc := .accept sshClientConn, trace := tr } =
        { pc := .accept sshClientConn,
          trace := tr ++ [.accept t.localListener, .print (.errorAccepting err)] }) ∧
    (∀ tr err, net.accept tr t.localListener = .error err →
      ∀ e ∈ (step net t { pc := .accept sshClientConn, trace := tr }).trace.drop tr.length,
        e.isChannelDial = false ∧ e.isGoCopy = false) ∧
    (∀ tr localConn err, net.channelDial tr sshClientConn t.remoteAddress = .error err →
      (step net t { pc := .channel sshClientConn localConn, trace := tr }).pc =
        .accept sshClientConn) ∧
    (∀ tr, ∃ rest, (step net t { pc := .accept sshClientConn, trace := tr }).trace =
      tr ++ .accept t.localListener :: rest) ∧
    (∀ n s, (s.pc = .accept sshClientConn ∨ ∃ c, s.pc = .channel sshClientConn c) →
      ((run net t n s).pc = .accept sshClientConn ∨
        ∃ c, (run net t n s).pc = .channel sshClientConn c) ∧
      (run net t n s).pc ≠ .stopped ∧ ∀ err, (run net t n s).pc ≠ .panicked err) := by
  have hacc : ∀ tr err, net.accept tr t.localListener = .error err →
      step net t { pc := .accept sshClientConn, trace := tr } =
        { pc := .accept sshClientConn,
          trace := tr ++ [.accept t.localListener, .print (.errorAccepting err)] } := by
    intro tr err h
    simp only [step, h]
  refine ⟨hacc, ?_, ?_, ?_, ?_⟩
  · intro tr err h e he
    rw [hacc tr err h] at he
    simp only [List.drop_left, List.mem_cons, List.mem_singleton, List.not_mem_nil,
      or_false] at he
    rcases he with rfl | rfl <;> exact ⟨rfl, rfl⟩
  · intro tr localConn err h
    simp only [step, h]
  · intro tr
    simp only [step]
    split
    · exact ⟨_, rfl⟩
    · exact ⟨[], rfl⟩
  · intro n s hs
    have h := run_stays_in_loop net t sshClientConn n s hs
    refine ⟨h, ?_, ?_⟩
    · rcases h with h | ⟨c, h⟩ <;> rw [h] <;> simp
    · intro err
      rcases h with h | ⟨c, h⟩ <;> rw [h] <;> simp

/-- C7 at a sample: an accept error, then an accepted connection whose channel fails, then
another one; after five steps the goroutine is in the loop. -/
theorem C7_accept_loop_never_stops_witness :
    run netClosedRemote sampleTunnel 5 { pc := .accept { id := 4 }, trace := [] } =
      { pc := .accept { id := 4 },
        trace := [.accept { id := 3 }, .print (.errorAccepting "too many open files"),
          .accept { id := 3 }, .channelDial { id := 4 } "10.0.0.5:80",
          .print (.errorOpening "10.0.0.5:80" "administratively prohibited"),
          .accept { id := 3 }, .channelDial { id := 4 } "10.0.0.5:80",
          .print (.errorOpening "10.0.0.5:80" "administratively prohibited")] } ∧
    (run netClosedRemote sampleTunnel 5 { pc := .accept { id := 4 }, trace := [] }).pc ≠
      .stopped :=
  ⟨by decide,
   ((C7_accept_loop_never_stops netClosedRemote sampleTunnel { id := 4 }).2.2.2.2 5
     { pc := .accept { id := 4 }, trace := [] } (Or.inl rfl)).2.1⟩

/-! ## Claims about the relay tasks -/

/-- A copy into a destination that takes every byte delivers exactly the bytes read from
the source, in order, and ends as the source does, whatever the source does. -/
theorem ioCopy_acceptAll (write : Writer)
    (hw : ∀ received p, write received p = (p.length, none)) (reads : List ReadResult) :
    ∀ received, ioCopy write reads received =
      (received ++ bytesRead reads, sourceEnd reads) := by
  induction reads with
  | nil =>
    intro received
    simp [ioCopy, bytesRead, sourceEnd]
  | cons r rs ih =>
    intro received
    obtain ⟨data, status⟩ := r
    unfold ioCopy
    by_cases hp : 0 < data.length
    · simp only [hp, if_true, hw, lt_irrefl, if_false, ne_eq, not_true_eq_false,
        List.take_length]
      cases status with
      | more => simp only [ih, bytesRead, sourceEnd, List.append_assoc]
      | eof => simp only [bytesRead, sourceEnd]
      | failed err => simp only [bytesRead, sourceEnd]
    · have hnil : data = [] := by
        cases data with
        | nil => rfl
        | cons a as => simp at hp
      subst hnil
      simp only [List.length_nil, lt_irrefl, if_false]
      cases status with
      | more => simp only [ih, bytesRead, sourceEnd, List.nil_append]
      | eof => simp only [bytesRead, sourceEnd, List.append_nil]
      | failed err => simp only [bytesRead, sourceEnd, List.append_nil]

/-- Whatever the destination answers, what a copy delivers is an initial part of the bytes
read from the source: nothing is changed, reordered or made up. -/
theorem ioCopy_prefix (write : Writer) (reads : List ReadResult) :
    ∀ received, ∃ t, (ioCopy write reads received).1 = received ++ t ∧
      t <+: bytesRead reads := by
  induction reads with
  | nil =>
    intro received
    exact ⟨[], by simp [ioCopy], List.nil_prefix⟩
  | cons r rs ih =>
    intro received
    obtain ⟨data, status⟩ := r
    have hdata : data <+: bytesRead ({ data := data, status := status } :: rs) := by
      cases status with
      | more => simp only [bytesRead]; exact List.prefix_append _ _
      | eof => simp only [bytesRead]; exact List.prefix_refl _
      | failed err => simp only [bytesRead]; exact List.prefix_refl _
    have htake : ∀ n, data.take n <+: bytesRead ({ data := data, status := status } :: rs) :=
      fun n => (List.take_prefix n data).trans hdata
    unfold ioCopy
    by_cases hp : 0 < data.length
    · simp only [hp, if_true]
      rcases hw : write received data with ⟨nw, ew⟩
      simp only
      by_cases hlt : data.length < nw
      · simp only [hlt, if_true]
        exact ⟨data.take nw, rfl, htake nw⟩
      · simp only [hlt, if_false]
        cases ew with
        | some err => exact ⟨data.take nw, rfl, htake nw⟩
        | none =>
          simp only
          by_cases hne : nw = data.length
          · subst hne
            simp only [ne_eq, not_true_eq_false, if_false, List.take_length]
            cases status with
            | more =>
              simp only
              obtain ⟨t, ht, hpre⟩ := ih (received ++ data)
              refine ⟨data ++ t, by rw [ht, List.append_assoc], ?_⟩
              simp only [bytesRead]
              exact (List.prefix_append_right_inj data).2 hpre
            | eof => exact ⟨data, rfl, by simpa using hdata⟩
            | failed err => exact ⟨data, rfl, by simpa using hdata⟩
          · simp only [ne_eq, hne, not_false_eq_true, if_true]
            exact ⟨data.take nw, rfl, htake nw⟩
    · have hnil : data = [] := by
        cases data with
        | nil => rfl
        | cons a as => simp at hp
      subst hnil
      simp only [List.length_nil, lt_irrefl, if_false]
      cases status with
      | more =>
        simp only
        obtain ⟨t, ht, hpre⟩ := ih received
        exact ⟨t, ht, by simpa [bytesRead] using hpre⟩
      | eof => exact ⟨[], by simp, List.nil_prefix⟩
      | failed err => exact ⟨[], by simp, List.nil_prefix⟩

/-- A source that hands out pieces and then ends yields their concatenation and ends the
copy normally. -/
theorem bytesRead_readsOf (pieces : List (List Byte)) :
    bytesRead (readsOf pieces) = pieces.flatten ∧ sourceEnd (readsOf pieces) = .finished := by
  induction pieces with
  | nil => simp [readsOf, bytesRead, sourceEnd]
  | cons p ps ih =>
    have hcons : readsOf (p :: ps) = { data := p, status := .more } :: readsOf ps := by
      simp [readsOf]
    rw [hcons]
    simp only [bytesRead, sourceEnd, ih, List.flatten_cons, and_self]

/-- Filling buffers from a pending byte sequence loses and reorders nothing, and no piece is
longer than the buffer. -/
theorem bufferFills_flatten (size : Nat) (hsize : 0 < size) (fuel : Nat) :
    ∀ bs : List Byte, bs.length ≤ fuel →
      (bufferFills size fuel bs).flatten = bs ∧
      ∀ p ∈ bufferFills size fuel bs, p.length ≤ size := by
  induction fuel with
  | zero =>
    intro bs hlen
    have : bs = [] := List.length_eq_zero.1 (Nat.le_zero.1 hlen)
    subst this
    simp [bufferFills]
  | succ fuel ih =>
    intro bs hlen
    unfold bufferFills
    by_cases hbs : bs = []
    · simp [hbs]
    · rw [if_neg hbs]
      have hpos : 0 < bs.length := List.length_pos.2 hbs
      have hdrop : (bs.drop size).length ≤ fuel := by
        rw [List.length_drop]
        omega
      obtain ⟨h1, h2⟩ := ih (bs.drop size) hdrop
      constructor
      · rw [List.flatten_cons, h1, List.take_append_drop]
      · intro p hp
        rcases List.mem_cons.1 hp with h | h
        · subst h
          rw [List.length_take]
          exact Nat.min_le_left _ _
        · exact h2 p h

/-- C9: for a forwarded connection whose channel opened, the loop starts two relay tasks, the
first copying from the local connection to the channel and the second from the channel to
the local connection. When the end written to takes every write, each relay delivers exactly
the bytes read from its source, unchanged and in order, and ends as its source does:
whatever the source does (no bytes at all, pieces of any size, data coming with the end of
stream or with an error, a connection still open). In particular a byte sequence handed out
in pieces and followed by the end of stream, or read in buffer-sized pieces, arrives whole.
Whatever the destination answers, what a copy delivers is an initial part of the bytes
read. -/
theorem C9_relay_round_trip (net : Net) (t : Tunnel) (tr : List Event)
    (sshClientConn : SshClient) (localConn : Conn) (sshConn : Channel) (io : Streams)
    (hopen : net.channelDial tr sshClientConn t.remoteAddress = .ok sshConn)
    (hremote : ∀ received p, io.write (.sshConn sshConn) received p = (p.length, none))
    (hlocal : ∀ received p, io.write (.localConn localConn) received p = (p.length, none)) :
    ((((step net t { pc := .channel sshClientConn localConn, trace := tr }).trace.drop
        tr.length).filter (fun e => e.isGoCopy)).map (relay io) =
      [some (.sshConn sshConn, bytesRead (io.reads (.localConn localConn)),
         sourceEnd (io.reads (.localConn localConn))),
       some (.localConn localConn, bytesRead (io.reads (.sshConn sshConn)),
         sourceEnd (io.reads (.sshConn sshConn)))]) ∧
    (∀ pieces : List (List Byte),
      bytesRead (readsOf pieces) = pieces.flatten ∧ sourceEnd (readsOf pieces) = .finished) ∧
    (∀ bs : List Byte,
      ioCopy (io.write (.sshConn sshConn)) (readsOf (bufferFills copyBufferSize bs.length bs)) [] =
        (bs, .finished) ∧
      ioCopy (io.write (.localConn localConn))
          (readsOf (bufferFills copyBufferSize bs.length bs)) [] =
        (bs, .finished)) ∧
    (∀ (write : Writer) (reads : List ReadResult),
      (ioCopy write reads []).1 <+: bytesRead reads) := by
  refine ⟨?_, bytesRead_readsOf, ?_, ?_⟩
  · have hs : step net t { pc := .channel sshClientConn localConn, trace := tr } =
        { pc := .accept sshClientConn,
          trace := tr ++ [.channelDial sshClientConn t.remoteAddress,
            .goCopy (.sshConn sshConn) (.localConn localConn),
            .goCopy (.localConn localConn) (.sshConn sshConn)] } := by
      simp only [step, hopen]
    rw [hs]
    simp only [List.drop_left, List.filter, Event.isGoCopy, List.map, relay]
    rw [ioCopy_acceptAll _ hremote, ioCopy_acceptAll _ hlocal]
    simp
  · intro bs
    have hf := (bufferFills_flatten copyBufferSize (by decide) bs.length bs (le_refl _)).1
    rw [ioCopy_acceptAll _ hremote, ioCopy_acceptAll _ hlocal,
      (bytesRead_readsOf _).1, (bytesRead_readsOf _).2, hf]
    simp
  · intro write reads
    obtain ⟨t, ht, hpre⟩ := ioCopy_prefix write reads []
    rw [ht]
    simpa using hpre

/-- C9 at a sample: `GET` goes up in two pieces, the second coming with an error; `200` has
come down on a channel that is still open. -/
theorem C9_relay_round_trip_witness :
    netHealthy.channelDial [.accept { id := 3 }] { id := 4 } sampleTunnel.remoteAddress =
      .ok { id := 6 } ∧
    (((step netHealthy sampleTunnel
        { pc := .channel { id := 4 } { id := 5 }, trace := [.accept { id := 3 }] }).trace.drop
        [Event.accept { id := 3 }].length).filter (fun e => e.isGoCopy)).map
        (relay openStreams) =
      [some (.sshConn { id := 6 }, bytesRead (openStreams.reads (.localConn { id := 5 })),
         sourceEnd (openStreams.reads (.localConn { id := 5 }))),
       some (.localConn { id := 5 }, bytesRead (openStreams.reads (.sshConn { id := 6 })),
         sourceEnd (openStreams.reads (.sshConn { id := 6 })))] ∧
    bytesRead (openStreams.reads (.localConn { id := 5 })) = [71, 69, 84] ∧
    sourceEnd (openStreams.reads (.localConn { id := 5 })) = .failed "connection reset by peer" ∧
    bytesRead (openStreams.reads (.sshConn { id := 6 })) = [50, 48, 48] ∧
    sourceEnd (openStreams.reads (.sshConn { id := 6 })) = .blocked :=
  ⟨rfl,
   (C9_relay_round_trip netHealthy sampleTunnel [.accept { id := 3 }] { id := 4 } { id := 5 }
     { id := 6 } openStreams rfl (fun _ _ => rfl) (fun _ _ => rfl)).1,
   by decide, by decide, by decide, by decide⟩

/-- The relays at a sample where data comes together with the end of stream and the channel
takes only two of the three bytes it is given: the copy to the channel stops with a short
write after delivering those two, the copy to the local connection delivers all. -/
theorem relay_short_write_sample :
    relay shortStreams (.goCopy (.sshConn { id := 6 }) (.localConn { id := 5 })) =
      some (.sshConn { id := 6 }, [71, 69], .failed "short write") ∧
    relay shortStreams (.goCopy (.localConn { id := 5 }) (.sshConn { id := 6 })) =
      some (.localConn { id := 5 }, [50, 48, 48], .finished) := by
  refine ⟨?_, ?_⟩ <;> decide

end OpenSshTunnels
